import Mathlib

/-!
# Verification of the opencode web UI streaming-translation backend

Shallow embedding of the backend of `opencode_webui_cli`:
the message-format translator (`src/backend/opencode/claudeFormat.ts`),
the session-export converter (`src/backend/opencode/history.ts`),
the chat stream orchestrator (`src/backend/handlers/chat.ts`),
the history reconciler (`src/backend/handlers/histories.ts`),
the file-path guard (`src/backend/handlers/files.ts`),
the abort handler (`src/backend/handlers/abort.ts`),
and the project list handler (`src/backend/handlers/projects.ts` with
`store.ts`).

Conventions of the embedding:
* JavaScript strings are Lean `String`s (all inputs of interest are ASCII,
  where `toLowerCase`/`toUpperCase` agree with `Char.toLower`/`Char.toUpper`);
* `undefined`/missing optional values are `Option.none`; JS string
  truthiness (`""` and `undefined` are falsy) is made explicit at each
  use site;
* JSON numbers keep their literal text; the handlers only consume them as
  integer epoch-milliseconds, modelled by an integer interpretation;
* fallible paths (JS `throw` caught by a surrounding `try`) are explicit
  `Option`/sum results.
-/

/-- JSON values as produced by `JSON.parse`.  Object fields keep source
order; `JSON.parse` keeps only the last occurrence of a duplicated key, so
the parser below never produces a duplicate key.  A number keeps its
literal text (`lit`), interpreted as an integer where the handlers consume
it. -/
inductive Json where
  | null : Json
  | bool (b : Bool) : Json
  | num (lit : String) : Json
  | str (s : String) : Json
  | arr (items : List Json) : Json
  | obj (fields : List (String × Json)) : Json
deriving Repr, BEq, Inhabited

/-! ## `src/backend/opencode/claudeFormat.ts` — message format translator -/

/-- `ToolPartState.status`.  `claudeFormat.ts` declares the field optional;
every consumer compares it to the string `"error"` / `"completed"`, so a
missing status behaves exactly like `running` and is folded into it. -/
inductive ToolStatus where
  | running : ToolStatus
  | completed : ToolStatus
  | error : ToolStatus
deriving Repr, DecidableEq, BEq

/-- `ToolPartState.time` (`{start, end}`, epoch milliseconds).  The field
named `end` in the source is `endTime` here (`end` is a Lean keyword). -/
structure ToolTime where
  start : Int
  endTime : Int
deriving Repr, DecidableEq, BEq

/-- `ToolPartState` of `claudeFormat.ts` (the required-`time` refinement
declared in `history.ts`; every caller that reaches
`getToolResultTimestamp` supplies `time`, which the source dereferences
unconditionally). -/
structure ToolPartState where
  input : Option Json := none
  output : Option String := none
  error : Option String := none
  status : ToolStatus := ToolStatus.running
  metadata : Option Json := none
  time : ToolTime := ⟨0, 0⟩
deriving Repr, BEq

/-- `ToolPart` of `claudeFormat.ts` (`type: "tool"`). -/
structure ToolPart where
  callID : String
  tool : String
  state : ToolPartState
deriving Repr, BEq

/-- `ClaudeContentItem` — the tagged union of content items. -/
inductive ClaudeContentItem where
  | text (text : String) : ClaudeContentItem
  | thinking (thinking : String) : ClaudeContentItem
  | toolUse (id : String) (name : String) (input : Json) : ClaudeContentItem
  | toolResult (tool_use_id : String) (content : Option String)
      (is_error : Bool) : ClaudeContentItem
deriving Repr, BEq

/-- The `toolUseResult` attachment of a user message.  Each constructor
records one of the object shapes built in `chat.ts`
(`createToolUseResult`) or `history.ts` (`buildToolResultMessage`). -/
inductive ToolUseResult where
  | bash (stdout : String) : ToolUseResult
  | meta (m : Json) : ToolUseResult
  | plain (output : String) : ToolUseResult
  | history (output : Option String) (metadata : Option Json) : ToolUseResult
deriving Repr, BEq

/-- Discriminant of `ClaudeMessage.type`. -/
inductive MessageType where
  | system : MessageType
  | assistant : MessageType
  | user : MessageType
  | result : MessageType
deriving Repr, DecidableEq, BEq

/-- `ClaudeMessage` — the stable outward protocol message.  Optional JSON
keys that a given builder does not set stay `none`. -/
structure ClaudeMessage where
  type : MessageType
  subtype : Option String := none
  model : Option String := none
  session_id : Option String := none
  tools : Option (List String) := none
  cwd : Option String := none
  permissionMode : Option String := none
  apiKeySource : Option String := none
  duration_ms : Option Int := none
  total_cost_usd : Option Int := none
  usageTokens : Option (Int × Int) := none
  content : Option (List ClaudeContentItem) := none
  toolUseResult : Option ToolUseResult := none
  timestamp : Option String := none
deriving Repr, BEq

/-! ### Character-level models of the JavaScript string primitives

The handlers only ever feed ASCII data into `toLowerCase`, `trim`,
`split` and friends, where the JS primitives agree with the character-wise
definitions below. -/

/-- JS `String.prototype.toLowerCase` (ASCII range). -/
def jsToLower (s : String) : String := ⟨s.data.map Char.toLower⟩

/-- The JS `WhiteSpace`/`LineTerminator` characters that
`String.prototype.trim` removes (ASCII range plus NBSP and BOM). -/
def isJsSpace (c : Char) : Bool :=
  c = ' ' || c = '\t' || c = '\n' || c = '\r' || c = '\x0b' || c = '\x0c' ||
  c = '\u00A0' || c = '\uFEFF'

/-- JS `String.prototype.trim`. -/
def jsTrim (s : String) : String :=
  ⟨((s.data.dropWhile isJsSpace).reverse.dropWhile isJsSpace).reverse⟩

/-- Split a character list at every delimiter (JS
`String.prototype.split` with a single-character class: delimiters are
dropped, empty segments kept). -/
def splitChars (p : Char → Bool) : List Char → List (List Char)
  | [] => [[]]
  | c :: rest =>
      match splitChars p rest with
      | [] => [[]]
      | g :: gs => if p c then [] :: g :: gs else (c :: g) :: gs

/-- JS `String.prototype.split` against a character class. -/
def jsSplit (s : String) (p : Char → Bool) : List String :=
  (splitChars p s.data).map String.mk

/-- JS `String.prototype.startsWith`. -/
def jsStartsWith (s pre : String) : Bool := pre.data.isPrefixOf s.data

/-- `TOOL_NAME_OVERRIDES` lookup table. -/
def TOOL_NAME_OVERRIDES : List (String × String) :=
  [("todowrite", "TodoWrite"),
   ("todoread", "TodoRead"),
   ("apply_patch", "ApplyPatch"),
   ("webfetch", "WebFetch")]

/-- `capitalize`: upper-case the first character, keep the rest. -/
def capitalize (input : String) : String :=
  match input.data with
  | [] => input
  | c :: rest => ⟨c.toUpper :: rest⟩

/-- `toClaudeToolName`: fixed override on the lowercased name, else split
on `_`/`-`, capitalize each segment and concatenate. -/
def toClaudeToolName (tool : String) : String :=
  match TOOL_NAME_OVERRIDES.lookup (jsToLower tool) with
  | some v => v
  | none =>
      String.join ((jsSplit tool (fun c => c = '_' || c = '-')).map capitalize)

/-- `createInitMessage`. -/
def createInitMessage (sessionId : String) (cwd : String)
    (permissionMode : String) (tools : List String) : ClaudeMessage :=
  { type := MessageType.system
    subtype := some "init"
    model := some "opencode"
    session_id := some sessionId
    tools := some tools
    cwd := some cwd
    permissionMode := some permissionMode
    apiKeySource := some "opencode" }

/-- `createResultMessage`. -/
def createResultMessage (durationMs : Int) : ClaudeMessage :=
  { type := MessageType.result
    duration_ms := some durationMs
    total_cost_usd := some 0
    usageTokens := some (0, 0) }

/-- `createAssistantMessage` (timestamp `none` on the live-stream path). -/
def createAssistantMessage (sessionId : String)
    (content : List ClaudeContentItem) (timestamp : Option String) :
    ClaudeMessage :=
  { type := MessageType.assistant
    session_id := some sessionId
    content := some content
    timestamp := timestamp }

/-- `createUserMessage`. -/
def createUserMessage (sessionId : String)
    (content : List ClaudeContentItem) (timestamp : Option String)
    (toolUseResult : Option ToolUseResult) : ClaudeMessage :=
  { type := MessageType.user
    session_id := some sessionId
    content := some content
    toolUseResult := toolUseResult
    timestamp := timestamp }

/-- `createTextItem`: the empty string yields no item. -/
def createTextItem (text : String) : Option ClaudeContentItem :=
  if text = "" then none else some (ClaudeContentItem.text text)

/-- `createThinkingItem`: the empty string yields no item. -/
def createThinkingItem (thinking : String) : Option ClaudeContentItem :=
  if thinking = "" then none else some (ClaudeContentItem.thinking thinking)

/-- `createToolUseItem`. -/
def createToolUseItem (part : ToolPart) : ClaudeContentItem :=
  ClaudeContentItem.toolUse part.callID (toClaudeToolName part.tool)
    (part.state.input.getD (Json.obj []))

/-- `createToolResultItem`: on `error` status the content is the error
text (possibly missing); otherwise the output text defaulted to `""`. -/
def createToolResultItem (part : ToolPart) : ClaudeContentItem :=
  ClaudeContentItem.toolResult part.callID
    (if part.state.status = ToolStatus.error then part.state.error
     else some (part.state.output.getD ""))
    (part.state.status = ToolStatus.error)

/-- `getToolResultTimestamp`: `time.end` for `completed`/`error`, else
`time.start`. -/
def getToolResultTimestamp (part : ToolPart) : Int :=
  if part.state.status = ToolStatus.completed ∨
      part.state.status = ToolStatus.error then
    part.state.time.endTime
  else
    part.state.time.start

/-! ## `src/backend/handlers/chat.ts` — permission mode plumbing -/

/-- `ChatRequest.permissionMode`. -/
inductive PermissionMode where
  | default : PermissionMode
  | plan : PermissionMode
  | acceptEdits : PermissionMode
deriving Repr, DecidableEq, BEq

/-- `getAgentName`: `acceptEdits` selects the `build` agent, every other
mode (including `plan`, `default` and a missing mode) the `plan` agent. -/
def getAgentName (mode : Option PermissionMode) : String :=
  if mode = some PermissionMode.acceptEdits then "build" else "plan"

/-- The `--agent` selection written from the spec's words, for comparison
with `getAgentName`: `plan → "plan"`, `acceptEdits`/`default` → `"build"`.
Modelled from the spec: the spec does not say what a missing mode maps
to; it is sent through `"build"` with `default`. -/
def getAgentNameSpec (mode : Option PermissionMode) : String :=
  if mode = some PermissionMode.plan then "plan" else "build"

/-! ## `src/backend/handlers/chat.ts` — chat stream orchestrator -/

/-- JS string truthiness: `undefined` and `""` are falsy; a truthy value
is returned unchanged. -/
def jsTruthy : Option String → Option String
  | some s => if s = "" then none else some s
  | none => none

/-- Minimal `JSON.stringify` string escaping (quote, backslash and the
common control characters; other characters pass through). -/
def jsonEscapeChar (c : Char) : List Char :=
  if c = '"' then ['\\', '"']
  else if c = '\\' then ['\\', '\\']
  else if c = '\n' then ['\\', 'n']
  else if c = '\r' then ['\\', 'r']
  else if c = '\t' then ['\\', 't']
  else [c]

mutual

/-- `JSON.stringify` (compact form, insertion-order object keys). -/
def jsonStringify : Json → String
  | Json.null => "null"
  | Json.bool b => if b then "true" else "false"
  | Json.num lit => lit
  | Json.str s => "\"" ++ ⟨s.data.flatMap jsonEscapeChar⟩ ++ "\""
  | Json.arr items => "[" ++ jsonStringifyList items ++ "]"
  | Json.obj fields => "\x7b" ++ jsonStringifyFields fields ++ "\x7d"

def jsonStringifyList : List Json → String
  | [] => ""
  | [j] => jsonStringify j
  | j :: rest => jsonStringify j ++ "," ++ jsonStringifyList rest

def jsonStringifyFields : List (String × Json) → String
  | [] => ""
  | [(k, v)] => jsonStringify (Json.str k) ++ ":" ++ jsonStringify v
  | (k, v) :: rest =>
      jsonStringify (Json.str k) ++ ":" ++ jsonStringify v ++ "," ++
        jsonStringifyFields rest

end

/-- `StreamResponse` — one NDJSON line of the chat response stream. -/
inductive StreamResponse where
  | claude_json (data : ClaudeMessage) : StreamResponse
  | error (error : String) : StreamResponse
  | done : StreamResponse
  | aborted : StreamResponse
deriving Repr, BEq

/-- A parsed CLI event, discriminated on `event.type` exactly as
`handleEvent` does; `other` covers every other (or missing) type, for
which only the session-id bookkeeping runs.  A `text` event carries
`event.part?.text`; a `tool_use` event carries `event.part`. -/
inductive CliEvent where
  | text (sessionID : Option String) (text : Option String) : CliEvent
  | tool_use (sessionID : Option String) (part : Option ToolPart) : CliEvent
  | error (sessionID : Option String) (err : Option Json) : CliEvent
  | other (sessionID : Option String) : CliEvent
deriving Repr, BEq

/-- The `sessionID` field of an event. -/
def CliEvent.sid : CliEvent → Option String
  | CliEvent.text s _ => s
  | CliEvent.tool_use s _ => s
  | CliEvent.error s _ => s
  | CliEvent.other s => s

/-- The mutable locals of one `handleChatRequest` stream (`sessionId`,
`initSent`, `errorText`); emitted responses are returned alongside, in
order, rather than mutated into a controller. -/
structure ChatState where
  sessionId : Option String := none
  initSent : Bool := false
  errorText : String := ""
deriving Repr, BEq

/-- The fields of the chat request the stream logic reads. -/
structure ChatRequestModel where
  message : String := ""
  sessionId : Option String := none
  workingDirectory : Option String := none
  permissionMode : Option PermissionMode := none
deriving Repr, BEq

/-- The wire spelling of a permission mode. -/
def permissionModeString : PermissionMode → String
  | PermissionMode.default => "default"
  | PermissionMode.plan => "plan"
  | PermissionMode.acceptEdits => "acceptEdits"

/-- `getEventSession` followed by the truthiness test every use site
applies: the event session id if truthy, else the current `sessionId`
local if truthy. -/
def resolvedSession (st : ChatState) (sid : Option String) : Option String :=
  match jsTruthy sid with
  | some s => some s
  | none => jsTruthy st.sessionId

/-- `sendInit`: emit the init message once; later calls emit nothing. -/
def sendInit (req : ChatRequestModel) (st : ChatState)
    (resolvedSessionId : String) : ChatState × List StreamResponse :=
  if st.initSent then (st, [])
  else
    ({ st with initSent := true },
     [StreamResponse.claude_json
        (createInitMessage resolvedSessionId (req.workingDirectory.getD "")
          ((req.permissionMode.map permissionModeString).getD "default") [])])

/-- `isExitPlanModeTool`: lowercase the tool name, delete `_`/`-`, compare
with `"exitplanmode"`. -/
def isExitPlanModeTool (p : ToolPart) : Bool :=
  (String.mk ((jsToLower p.tool).data.filter
      (fun c => ¬(c = '_' || c = '-')))) = "exitplanmode"

/-- `createExitPlanModeResultItem`: the fixed rejection result. -/
def createExitPlanModeResultItem (p : ToolPart) : ClaudeContentItem :=
  ClaudeContentItem.toolResult p.callID (some "Exit plan mode?") true

/-- `createToolUseResult` of `chat.ts`: bash gets a stdout envelope,
otherwise metadata passes through when present (metadata, when present,
is an object and hence truthy), else an `{output}` wrapper. -/
def createToolUseResult (p : ToolPart) : ToolUseResult :=
  let output := if p.state.status = ToolStatus.error then p.state.error.getD ""
    else p.state.output.getD ""
  if p.tool = "bash" then ToolUseResult.bash output
  else
    match p.state.metadata with
    | some m => ToolUseResult.meta m
    | none => ToolUseResult.plain output

/-- The error text of an `error` event: the string itself when the error
is a string, else `JSON.stringify(event.error ?? "Unknown error")`
(`null` also falls back, as `??` treats it like `undefined`). -/
def cliErrorMessage : Option Json → String
  | some (Json.str s) => s
  | some Json.null => jsonStringify (Json.str "Unknown error")
  | some j => jsonStringify j
  | none => jsonStringify (Json.str "Unknown error")

/-- Lines 177-180 of `handleEvent`: adopt a newly discovered session id
when none is known yet. -/
def assignSession (st : ChatState) (resolved : Option String) : ChatState :=
  match resolved with
  | some s =>
      if jsTruthy st.sessionId = none then { st with sessionId := some s }
      else st
  | none => st

/-- Line 181 of `handleEvent`: `if (resolvedSessionId) sendInit(...)`. -/
def initStep (req : ChatRequestModel) (st : ChatState)
    (resolved : Option String) : ChatState × List StreamResponse :=
  match resolved with
  | some s => sendInit req st s
  | none => (st, [])

/-- The responses the type dispatch of `handleEvent` enqueues (after the
init step): a truthy text with a session becomes one assistant message; a
present tool part with a session becomes a tool_use assistant message
followed by a tool-result user message (the exit-plan-mode override
applies); an error event always enqueues an error line. -/
def dispatchOutputs (resolved : Option String) : CliEvent → List StreamResponse
  | CliEvent.text _ text =>
      match jsTruthy text, resolved with
      | some t, some s =>
          match createTextItem t with
          | some item =>
              [StreamResponse.claude_json (createAssistantMessage s [item] none)]
          | none => []
      | _, _ => []
  | CliEvent.tool_use _ part =>
      match part, resolved with
      | some p, some s =>
          [StreamResponse.claude_json
             (createAssistantMessage s [createToolUseItem p] none),
           StreamResponse.claude_json
             (createUserMessage s
               [if isExitPlanModeTool p then createExitPlanModeResultItem p
                else createToolResultItem p] none
               (some (createToolUseResult p)))]
      | _, _ => []
  | CliEvent.error _ err => [StreamResponse.error (cliErrorMessage err)]
  | CliEvent.other _ => []

/-- The `errorText` accumulation of the error branch. -/
def errorTextStep (st : ChatState) : CliEvent → ChatState
  | CliEvent.error _ err =>
      { st with errorText :=
          if st.errorText = "" then cliErrorMessage err
          else st.errorText ++ "\n" ++ cliErrorMessage err }
  | _ => st

/-- `handleEvent`: session-id discovery, idempotent init emission, then
dispatch on the event type.  Returns the updated locals and the responses
enqueued by this event, in order. -/
def handleEvent (req : ChatRequestModel) (st : ChatState) (ev : CliEvent) :
    ChatState × List StreamResponse :=
  let resolved := resolvedSession st ev.sid
  let st1 := assignSession st resolved
  (errorTextStep (initStep req st1 resolved).1 ev,
   (initStep req st1 resolved).2 ++ dispatchOutputs resolved ev)

/-- One parsed-event step of the streaming loop, threading the
accumulated output. -/
def chatStep (req : ChatRequestModel) :
    ChatState × List StreamResponse → CliEvent →
    ChatState × List StreamResponse
  | (st, out), ev =>
      ((handleEvent req st ev).1, out ++ (handleEvent req st ev).2)

/-- What the spawned CLI produced: the well-formed JSON lines of stdout in
order (the source skips malformed lines and never emits for them), the
exit code, and the accumulated stderr text. -/
structure CliRun where
  events : List CliEvent := []
  exitCode : Int := 0
  stderr : String := ""
deriving Repr, BEq

/-- The body of the `start` callback after a successful spawn: the
streaming loop, the non-zero-exit fallback error, the final init/result
pair when a session id is known, and the closing `done` sentinel.
`durationMs` is the orchestrator-measured wall-clock duration. -/
def chatBody (req : ChatRequestModel) (run : CliRun) (durationMs : Int) :
    List StreamResponse :=
  let folded := run.events.foldl (chatStep req) ({ sessionId := req.sessionId }, [])
  let st := folded.1
  let out1 :=
    if run.exitCode ≠ 0 ∧ st.errorText = "" then
      folded.2 ++ [StreamResponse.error
        (if jsTrim run.stderr ≠ "" then jsTrim run.stderr
         else "opencode exited with code " ++ toString run.exitCode)]
    else folded.2
  let out2 :=
    match jsTruthy st.sessionId with
    | some s =>
        out1 ++ (sendInit req st s).2 ++
          [StreamResponse.claude_json (createResultMessage durationMs)]
    | none => out1
  out2 ++ [StreamResponse.done]

/-- The whole `start` callback with its `try`/`catch`: an exception
(modelled at its first suspension point, the spawn) is caught, converted
to an error line, and the stream closes; no further line follows. -/
def handleChatStream (req : ChatRequestModel)
    (launch : Except String CliRun) (durationMs : Int) :
    List StreamResponse :=
  match launch with
  | Except.ok run => chatBody req run durationMs
  | Except.error e => [StreamResponse.error e]

/-- Recognizers over emitted stream lines. -/
def isDoneLine : StreamResponse → Bool
  | StreamResponse.done => true
  | _ => false

/-- An init protocol message line (`type:"system"`, `subtype:"init"`). -/
def isInitLine : StreamResponse → Bool
  | StreamResponse.claude_json m =>
      m.type = MessageType.system && m.subtype = some "init"
  | _ => false

/-- A result protocol message line. -/
def isResultLine : StreamResponse → Bool
  | StreamResponse.claude_json m => m.type = MessageType.result
  | _ => false

/-! ## `src/backend/opencode/history.ts` — session-export conversion -/

/-- Zero-padded decimal fields of an ISO timestamp. -/
def pad2 (n : Int) : String := if n < 10 then "0" ++ toString n else toString n

/-- Three-digit millisecond field. -/
def pad3 (n : Int) : String :=
  if n < 10 then "00" ++ toString n
  else if n < 100 then "0" ++ toString n
  else toString n

/-- Four-digit year field. -/
def pad4 (n : Int) : String :=
  if n < 10 then "000" ++ toString n
  else if n < 100 then "00" ++ toString n
  else if n < 1000 then "0" ++ toString n
  else toString n

/-- `toIso` / `Date.prototype.toISOString` on epoch milliseconds
(proleptic Gregorian civil-from-days conversion, UTC; years 0–9999). -/
def toIso (timestampMs : Int) : String :=
  let days := Int.fdiv timestampMs 86400000
  let msod := timestampMs - days * 86400000
  let hh := msod / 3600000
  let mi := msod % 3600000 / 60000
  let ss := msod % 60000 / 1000
  let msf := msod % 1000
  let z := days + 719468
  let era := Int.fdiv z 146097
  let doe := z - era * 146097
  let yoe := (doe - doe / 1460 + doe / 36524 - doe / 146096) / 365
  let doy := doe - (365 * yoe + yoe / 4 - yoe / 100)
  let mp := (5 * doy + 2) / 153
  let d := doy - (153 * mp + 2) / 5 + 1
  let m := mp + (if mp < 10 then 3 else -9)
  let y := yoe + era * 400 + (if m ≤ 2 then 1 else 0)
  pad4 y ++ "-" ++ pad2 m ++ "-" ++ pad2 d ++ "T" ++ pad2 hh ++ ":" ++
    pad2 mi ++ ":" ++ pad2 ss ++ "." ++ pad3 msf ++ "Z"

/-- A part of an export message, discriminated on `part.type` as the
conversion loop does (`text`, `reasoning`, `tool` via `isToolPart`,
anything else skipped).  A missing `text` field behaves as `""`
(`part.text ?? ""`), so it is folded into the string. -/
inductive ExportPart where
  | text (t : String) : ExportPart
  | reasoning (t : String) : ExportPart
  | tool (p : ToolPart) : ExportPart
  | other : ExportPart
deriving Repr, BEq

/-- `status === "completed" || status === "error"`. -/
def isCompletedOrError (p : ToolPart) : Bool :=
  p.state.status = ToolStatus.completed || p.state.status = ToolStatus.error

/-- `buildUserMessage`: the text parts of a user turn, empty texts
dropped. -/
def buildUserMessage (sessionId : String) (parts : List ExportPart)
    (createdAt : Int) : ClaudeMessage :=
  createUserMessage sessionId
    (parts.filterMap fun
      | ExportPart.text t => createTextItem t
      | _ => none)
    (some (toIso createdAt)) none

/-- `buildToolResultMessage`: one tool-result user message, timestamped
by `getToolResultTimestamp`. -/
def buildToolResultMessage (sessionId : String) (p : ToolPart) :
    ClaudeMessage :=
  createUserMessage sessionId [createToolResultItem p]
    (some (toIso (getToolResultTimestamp p)))
    (some (ToolUseResult.history
      (if p.state.status = ToolStatus.error then p.state.error
       else some (p.state.output.getD ""))
      p.state.metadata))

/-- The loop of `buildAssistantMessages`, carrying the accumulated
`content` and the `hasContent` flag; `flush` emits an assistant message
only when `hasContent` is set. -/
def buildAssistantGo (sessionId ts : String) :
    List ExportPart → List ClaudeContentItem → Bool → List ClaudeMessage
  | [], content, hasContent =>
      if hasContent then [createAssistantMessage sessionId content (some ts)]
      else []
  | part :: rest, content, hasContent =>
      match part with
      | ExportPart.text t =>
          match createTextItem t with
          | some item => buildAssistantGo sessionId ts rest (content ++ [item]) true
          | none => buildAssistantGo sessionId ts rest content hasContent
      | ExportPart.reasoning t =>
          match createThinkingItem t with
          | some item => buildAssistantGo sessionId ts rest (content ++ [item]) true
          | none => buildAssistantGo sessionId ts rest content hasContent
      | ExportPart.tool p =>
          if isCompletedOrError p then
            createAssistantMessage sessionId (content ++ [createToolUseItem p])
                (some ts) ::
              buildToolResultMessage sessionId p ::
              buildAssistantGo sessionId ts rest [] false
          else
            buildAssistantGo sessionId ts rest
              (content ++ [createToolUseItem p]) true
      | ExportPart.other => buildAssistantGo sessionId ts rest content hasContent

/-- `buildAssistantMessages`. -/
def buildAssistantMessages (sessionId : String) (parts : List ExportPart)
    (createdAt : Int) : List ClaudeMessage :=
  buildAssistantGo sessionId (toIso createdAt) parts [] false

/-- `info.role` of an export message. -/
inductive Role where
  | user : Role
  | assistant : Role
deriving Repr, DecidableEq, BEq

/-- One message of a session export (`{info, parts}`). -/
structure ExportMessage where
  role : Role
  sessionID : Option String := none
  timeCreated : Option Int := none
  parts : List ExportPart := []
deriving Repr, BEq

/-- `convertExportMessages`.  `now` models `Date.now()`, the fallback for
a missing `info.time.created`. -/
def convertExportMessages (now : Int) (messages : List ExportMessage) :
    List ClaudeMessage :=
  messages.flatMap (fun item =>
    let createdAt := item.timeCreated.getD now
    let sessionId := item.sessionID.getD "unknown"
    match item.role with
    | Role.user => [buildUserMessage sessionId item.parts createdAt]
    | Role.assistant => buildAssistantMessages sessionId item.parts createdAt)

/-! ### Classifiers and counters for the conversion theorems -/

/-- An assistant-content message. -/
def isAssistantMsg (m : ClaudeMessage) : Bool :=
  m.type = MessageType.assistant

/-- A tool-result user message (content is a single tool_result item). -/
def isToolResultMsg (m : ClaudeMessage) : Bool :=
  m.type = MessageType.user &&
    (match m.content with
     | some [ClaudeContentItem.toolResult _ _ _] => true
     | _ => false)

/-- A user-turn message (user type, not a tool-result envelope). -/
def isUserTurnMsg (m : ClaudeMessage) : Bool :=
  m.type = MessageType.user && !(isToolResultMsg m)

/-- Number of completed-or-errored tool parts in a turn. -/
def completedToolCount (parts : List ExportPart) : Nat :=
  parts.countP fun
    | ExportPart.tool p => isCompletedOrError p
    | _ => false

/-- Number of assistant messages the flush loop emits for a turn, given
the incoming `hasContent` flag. -/
def flushCount : List ExportPart → Bool → Nat
  | [], h => if h then 1 else 0
  | ExportPart.text t :: rest, h => flushCount rest (h || !(t = ""))
  | ExportPart.reasoning t :: rest, h => flushCount rest (h || !(t = ""))
  | ExportPart.tool p :: rest, _ =>
      if isCompletedOrError p then 1 + flushCount rest false
      else flushCount rest true
  | ExportPart.other :: rest, h => flushCount rest h

/-- The content items one export part contributes, in order. -/
def exportPartItems : ExportPart → List ClaudeContentItem
  | ExportPart.text t => (createTextItem t).toList
  | ExportPart.reasoning t => (createThinkingItem t).toList
  | ExportPart.tool p =>
      createToolUseItem p ::
        (if isCompletedOrError p then [createToolResultItem p] else [])
  | ExportPart.other => []

/-- The flattened stream of content items across a message list. -/
def contentStream (msgs : List ClaudeMessage) : List ClaudeContentItem :=
  msgs.flatMap (fun m => m.content.getD [])

/-- Tool-result items in a content stream. -/
def countToolResultItems (items : List ClaudeContentItem) : Nat :=
  items.countP fun
    | ClaudeContentItem.toolResult _ _ _ => true
    | _ => false

/-! ## `src/backend/handlers/histories.ts` — session/history reconciler -/

/-- Opening and closing curly brace characters. -/
def lbrace : Char := '\x7b'

/-- Closing curly brace. -/
def rbrace : Char := '\x7d'

/-- JSON insignificant whitespace. -/
def skipJsonWs (cs : List Char) : List Char :=
  cs.dropWhile (fun c => c = ' ' || c = '\t' || c = '\n' || c = '\r')

/-- Hexadecimal digit test for `\u` escapes. -/
def isHexDigit (c : Char) : Bool :=
  c.isDigit || ('a' ≤ c && c ≤ 'f') || ('A' ≤ c && c ≤ 'F')

/-- Hexadecimal digit value. -/
def hexVal (c : Char) : Nat :=
  if c.isDigit then c.toNat - 48
  else if 'a' ≤ c then c.toNat - 87
  else c.toNat - 55

/-- One-character JSON string escapes. -/
def jsonEscTable (e : Char) : Option Char :=
  if e = '"' then some '"'
  else if e = '\\' then some '\\'
  else if e = '/' then some '/'
  else if e = 'b' then some '\x08'
  else if e = 'f' then some '\x0c'
  else if e = 'n' then some '\n'
  else if e = 'r' then some '\r'
  else if e = 't' then some '\t'
  else none

/-- Body of a JSON string after the opening quote: the decoded characters
and the remainder after the closing quote. -/
def parseStringBody : List Char → Option (List Char × List Char)
  | [] => none
  | c :: rest =>
    if c = '"' then some ([], rest)
    else if c = '\\' then
      match rest with
      | [] => none
      | e :: rest2 =>
        if e = 'u' then
          match rest2 with
          | a :: b :: c2 :: d :: rest3 =>
            if isHexDigit a && isHexDigit b && isHexDigit c2 && isHexDigit d then
              (parseStringBody rest3).map (fun x =>
                (Char.ofNat
                    (hexVal a * 4096 + hexVal b * 256 + hexVal c2 * 16 +
                      hexVal d) :: x.1, x.2))
            else none
          | _ => none
        else
          match jsonEscTable e with
          | some ch => (parseStringBody rest2).map (fun x => (ch :: x.1, x.2))
          | none => none
    else if c.toNat < 32 then none
    else (parseStringBody rest).map (fun x => (c :: x.1, x.2))

/-- Fractional part of a JSON number. -/
def parseFrac : List Char → Option (List Char × List Char)
  | '.' :: r =>
      let ds := r.takeWhile Char.isDigit
      if ds.isEmpty then none
      else some ('.' :: ds, r.dropWhile Char.isDigit)
  | cs => some ([], cs)

/-- Exponent part of a JSON number. -/
def parseExp : List Char → Option (List Char × List Char)
  | [] => some ([], [])
  | c :: r =>
      if c = 'e' || c = 'E' then
        let signAndRest : List Char × List Char :=
          match r with
          | '+' :: rr => (['+'], rr)
          | '-' :: rr => (['-'], rr)
          | _ => ([], r)
        let ds := signAndRest.2.takeWhile Char.isDigit
        if ds.isEmpty then none
        else some (c :: signAndRest.1 ++ ds, signAndRest.2.dropWhile Char.isDigit)
      else some ([], c :: r)

/-- A JSON number literal (sign, integer part without leading zeros,
optional fraction and exponent); returns the literal and the rest. -/
def parseNumberLit (cs : List Char) : Option (List Char × List Char) :=
  let negAndRest : List Char × List Char :=
    match cs with
    | '-' :: r => (['-'], r)
    | _ => ([], cs)
  let intPart := negAndRest.2.takeWhile Char.isDigit
  let rest1 := negAndRest.2.dropWhile Char.isDigit
  if intPart.isEmpty then none
  else if intPart.head? = some '0' && intPart.length > 1 then none
  else
    match parseFrac rest1 with
    | none => none
    | some (fr, rest2) =>
      match parseExp rest2 with
      | none => none
      | some (ex, rest3) => some (negAndRest.1 ++ intPart ++ fr ++ ex, rest3)

/-- Insert an object field, `JSON.parse` style: a duplicated key keeps its
first position but the last value. -/
def insertField (fields : List (String × Json)) (k : String) (v : Json) :
    List (String × Json) :=
  if fields.any (fun f => f.1 = k) then
    fields.map (fun f => if f.1 = k then (k, v) else f)
  else fields ++ [(k, v)]

mutual

/-- Recursive-descent `JSON.parse` on fuel (any fuel of at least three
times the input length suffices; callers overshoot). -/
def parseValue : Nat → List Char → Option (Json × List Char)
  | 0, _ => none
  | Nat.succ fuel, cs =>
    match skipJsonWs cs with
    | [] => none
    | c :: rest =>
      if c = lbrace then parseObjFields fuel rest []
      else if c = '[' then parseArrStart fuel rest
      else if c = '"' then
        (parseStringBody rest).map (fun x => (Json.str ⟨x.1⟩, x.2))
      else
        match c :: rest with
        | 't' :: 'r' :: 'u' :: 'e' :: r => some (Json.bool true, r)
        | 'f' :: 'a' :: 'l' :: 's' :: 'e' :: r => some (Json.bool false, r)
        | 'n' :: 'u' :: 'l' :: 'l' :: r => some (Json.null, r)
        | cs' => (parseNumberLit cs').map (fun x => (Json.num ⟨x.1⟩, x.2))

def parseArrStart : Nat → List Char → Option (Json × List Char)
  | 0, _ => none
  | Nat.succ fuel, cs =>
    match skipJsonWs cs with
    | ']' :: rest => some (Json.arr [], rest)
    | cs' => parseArrItems fuel cs' []

def parseArrItems : Nat → List Char → List Json → Option (Json × List Char)
  | 0, _, _ => none
  | Nat.succ fuel, cs, acc =>
    match parseValue fuel cs with
    | none => none
    | some (v, rest) =>
      match skipJsonWs rest with
      | ',' :: rest2 => parseArrItems fuel rest2 (acc ++ [v])
      | ']' :: rest2 => some (Json.arr (acc ++ [v]), rest2)
      | _ => none

def parseObjFields : Nat → List Char → List (String × Json) →
    Option (Json × List Char)
  | 0, _, _ => none
  | Nat.succ fuel, cs, acc =>
    match skipJsonWs cs with
    | c :: rest =>
      if c = rbrace && acc.isEmpty then some (Json.obj [], rest)
      else if c = '"' then
        match parseStringBody rest with
        | none => none
        | some (k, rest2) =>
          match skipJsonWs rest2 with
          | ':' :: rest3 =>
            match parseValue fuel rest3 with
            | none => none
            | some (v, rest4) =>
              match skipJsonWs rest4 with
              | ',' :: rest5 => parseObjFields fuel rest5 (insertField acc ⟨k⟩ v)
              | c2 :: rest5 =>
                  if c2 = rbrace then
                    some (Json.obj (insertField acc ⟨k⟩ v), rest5)
                  else none
              | [] => none
          | _ => none
      else none
    | [] => none

end

/-- `JSON.parse`: a single value with only whitespace around it. -/
def jsonParse (s : String) : Option Json :=
  match parseValue (3 * s.length + 3) s.data with
  | some (j, rest) => if skipJsonWs rest = [] then some j else none
  | none => none

/-- The bracket-extraction step of the reconciler: trim, strip a leading
byte-order mark, then cut from the first `[` to the last `]` when both
exist in that order. -/
def cleanOutput (stdout : String) : String :=
  let trimmed : List Char :=
    match (jsTrim stdout).data with
    | c :: rest => if c = '﻿' then rest else c :: rest
    | [] => []
  let firstBracket := trimmed.findIdx? (fun c => c = '[')
  let lastBracket :=
    match trimmed.reverse.findIdx? (fun c => c = ']') with
    | some i => some (trimmed.length - 1 - i)
    | none => none
  match firstBracket, lastBracket with
  | some f, some l =>
      if l > f then ⟨(trimmed.drop f).take (l + 1 - f)⟩ else ⟨trimmed⟩
  | _, _ => ⟨trimmed⟩

/-- One left-to-right pass of `replace(/,\s*([}\]])/g, "$1")`: a comma
followed by whitespace and a closing bracket collapses to the bracket;
scanning resumes after a replaced bracket, or at the next character after
a comma that does not start a match. -/
def stripCommasFuel : Nat → List Char → List Char
  | 0, cs => cs
  | Nat.succ _, [] => []
  | Nat.succ f, c :: rest =>
    if c = ',' then
      match rest.dropWhile isJsSpace with
      | b :: tail =>
          if b = rbrace || b = ']' then b :: stripCommasFuel f tail
          else ',' :: stripCommasFuel f rest
      | [] => ',' :: stripCommasFuel f rest
    else c :: stripCommasFuel f rest

/-- The scan with enough fuel (every step consumes at least one
character, so the length suffices). -/
def stripCommasGo (cs : List Char) : List Char :=
  stripCommasFuel cs.length cs

/-- The trailing-comma strip applied to the cleaned output. -/
def stripTrailingCommas (s : String) : String := ⟨stripCommasGo s.data⟩

/-- First `n` characters (`String.prototype.slice(0, n)`). -/
def takeChars (n : Nat) (s : String) : String := ⟨s.data.take n⟩

/-- `typeof` of a parsed JSON value (`null` and objects are both
`"object"`). -/
def jsTypeof : Json → String
  | Json.obj _ => "object"
  | Json.null => "object"
  | Json.arr _ => "object"
  | Json.num _ => "number"
  | Json.str _ => "string"
  | Json.bool _ => "boolean"

/-- Decimal-integer interpretation of a number literal or numeric string
(the handlers consume timestamps as integer epoch milliseconds; a
fractional or exponent literal is outside the embedding domain and maps
to `none`, i.e. NaN). -/
def intFromLit (s : String) : Option Int :=
  match s.data with
  | '-' :: ds =>
      if ds ≠ [] ∧ ds.all Char.isDigit then
        some (-(ds.foldl (fun acc c => acc * 10 + (c.toNat - 48 : Int)) 0))
      else none
  | ds =>
      if ds ≠ [] ∧ ds.all Char.isDigit then
        some (ds.foldl (fun acc c => acc * 10 + (c.toNat - 48 : Int)) 0)
      else none

/-- JS `Number(x)` on a JSON value (or `undefined`); `none` is NaN. -/
def jsToNumber : Option Json → Option Int
  | none => none
  | some Json.null => some 0
  | some (Json.bool b) => some (if b then 1 else 0)
  | some (Json.num lit) => intFromLit lit
  | some (Json.str s) =>
      let t := jsTrim s
      if t = "" then some 0 else intFromLit t
  | some (Json.arr _) => none
  | some (Json.obj _) => none

/-- `getValue`: first key of the accepted-spellings list present in the
session object wins (even with a `null` value). -/
def getField (fields : List (String × Json)) : List String → Option Json
  | [] => none
  | k :: rest =>
    match fields.lookup k with
    | some v => some v
    | none => getField fields rest

/-- The intermediate record `mapped` builds per session (`updated` /
`created` are `none` when the conversion yields NaN). -/
structure SessionRecord where
  id : String
  title : String
  updated : Option Int
  created : Option Int
  directory : Option String
  projectId : Option String
deriving Repr, BEq

/-- Mapping one parsed session to a record.  A JSON array supports the
`in` operator but matches no key; a primitive makes `"id" in session`
throw (surfaced as `none`, which the handler turns into its 500 path). -/
def mapSession : Json → Option SessionRecord
  | Json.obj fields =>
      let getV := getField fields
      some
        { id := match getV ["id", "ID", "会话ID", "会话Id"] with
            | some (Json.str s) => s
            | _ => ""
          title := match getV ["title", "标题", "名称"] with
            | some (Json.str s) => s
            | _ => ""
          updated := jsToNumber (getV ["updated", "更新", "更新时间"])
          created := jsToNumber (getV ["created", "已创建", "创建", "创建时间"])
          directory := match getV ["directory", "目录", "路径", "工作目录"] with
            | some (Json.str s) => some s
            | _ => none
          projectId := match getV ["projectId", "项目ID", "项目Id"] with
            | some (Json.str s) => some s
            | _ => none }
  | Json.arr _ =>
      some { id := "", title := "", updated := none, created := none,
             directory := none, projectId := none }
  | _ => none

/-- `normalize` of the histories handler (non-Windows branch: backslashes
to slashes, trailing slashes stripped, case preserved). -/
def normalizePathCmp (value : String) : String :=
  ⟨((value.data.map (fun c => if c = '\\' then '/' else c)).reverse.dropWhile
      (fun c => c = '/')).reverse⟩

/-- Stable insertion of `x` after every already-placed element `y` with
`le y x` (a stable sort is pointwise determined by the comparator, so this
models `Array.prototype.sort` with the handler's comparator). -/
def stableInsert (le : SessionRecord → SessionRecord → Bool)
    (x : SessionRecord) : List SessionRecord → List SessionRecord
  | [] => [x]
  | y :: ys => if le y x then y :: stableInsert le x ys else x :: y :: ys

/-- Stable sort by repeated insertion, in input order. -/
def stableSort (le : SessionRecord → SessionRecord → Bool)
    (l : List SessionRecord) : List SessionRecord :=
  l.foldl (fun acc x => stableInsert le x acc) []

/-- A buffered `runCommand` result. -/
structure CommandResult where
  success : Bool := true
  stdout : String := ""
  stderr : String := ""
  code : Int := 0
deriving Repr, BEq

/-- The diagnostic payload of the history list response (the fields the
claims touch). -/
structure HistoryDebug where
  count : Nat := 0
  parseError : Option String := none
  dataLen : Nat := 0
  dataType : String := ""
  rawHead : String := ""
deriving Repr, BEq

/-- One summarized conversation. -/
structure ConversationSummary where
  sessionId : String
  startTime : String
  lastTime : String
  messageCount : Nat
  lastMessagePreview : String
deriving Repr, BEq

/-- Outcome of the histories handler: a JSON list response, or the
500 path of the surrounding `catch`. -/
inductive HistoriesResult where
  | ok (conversations : List ConversationSummary) (debug : HistoryDebug) :
      HistoriesResult
  | serverError : HistoriesResult
deriving Repr, BEq

/-- `handleHistoriesRequest` from the `runCommand` result on: defensive
parse, per-session field extraction, optional directory filtering,
descending sort by `updated`, and summary construction
(`Date.toISOString` throwing on NaN is the `serverError` branch). -/
def handleHistoriesRequest (filterPath : Option String)
    (result : CommandResult) : HistoriesResult :=
  let target := (jsTruthy filterPath).map normalizePathCmp
  if ¬result.success ∨ jsTrim result.stdout = "" then
    HistoriesResult.ok []
      { count := 0, rawHead := takeChars 200 (jsTrim result.stdout) }
  else
    let parsedOutput := stripTrailingCommas (cleanOutput result.stdout)
    let parse : List Json × Option String × String :=
      match jsonParse parsedOutput with
      | some (Json.arr l) => (l, none, "array")
      | some j =>
          let l := match j with
            | Json.obj fields =>
                match fields.lookup "sessions" with
                | some (Json.arr l) => l
                | _ => []
            | _ => []
          (l, none, jsTypeof j)
      | none => ([], some "SyntaxError: Unexpected token in JSON", "error")
    let sessions := parse.1
    match (sessions.mapM mapSession : Option (List SessionRecord)) with
    | none => HistoriesResult.serverError
    | some mapped =>
      let hasDirectory := mapped.any (fun s => (jsTruthy s.directory).isSome)
      let filtered : List SessionRecord :=
        match target with
        | some t =>
            if t != "" && hasDirectory then
              mapped.filter (fun s =>
                match jsTruthy s.directory with
                | some d => normalizePathCmp d == t
                | none => false)
            else mapped
        | none => mapped
      let sorted :=
        stableSort (fun a b => (b.updated.getD 0) ≤ (a.updated.getD 0))
          (filtered.filter (fun s => s.id != ""))
      if sorted.all (fun s => s.created.isSome && s.updated.isSome) then
        HistoriesResult.ok
          (sorted.map (fun s =>
            { sessionId := s.id
              startTime := toIso (s.created.getD 0)
              lastTime := toIso (s.updated.getD 0)
              messageCount := 0
              lastMessagePreview :=
                match jsTruthy s.directory with
                | some d => s.title ++ " • " ++ d
                | none => s.title }))
          { count := sorted.length
            parseError := parse.2.1
            dataLen := sessions.length
            dataType := parse.2.2
            rawHead := takeChars 200 (jsTrim parsedOutput) }
      else HistoriesResult.serverError

/-! ## `src/backend/handlers/files.ts` — path validation -/

/-- POSIX path normalization of an absolute path string: split on `/`,
drop empty and `.` segments, let `..` pop (a `..` at the root is
dropped). -/
def normAbs (p : String) : String :=
  let segs := (jsSplit p (fun c => c = '/')).foldl
    (fun stack seg =>
      if seg = "" ∨ seg = "." then stack
      else if seg = ".." then stack.dropLast
      else stack ++ [seg]) []
  "/" ++ String.intercalate "/" segs

/-- `node:path` `resolve(p)` (POSIX): against the process working
directory when relative. -/
def resolveOne (cwd p : String) : String :=
  if jsStartsWith p "/" then normAbs p else normAbs (cwd ++ "/" ++ p)

/-- `node:path` `resolve(base, p)` (POSIX). -/
def resolveTwo (cwd base p : String) : String :=
  if jsStartsWith p "/" then normAbs p
  else if jsStartsWith base "/" then normAbs (base ++ "/" ++ p)
  else normAbs (cwd ++ "/" ++ base ++ "/" ++ p)

/-- `replace(/^file:\/\//i, "")`. -/
def stripFileScheme (s : String) : String :=
  if jsToLower (takeChars 7 s) = "file://" then ⟨s.data.drop 7⟩ else s

/-- `replace(/^\/?([A-Za-z]:)/, "$1")`: drop one leading slash before a
drive-letter prefix. -/
def stripDriveSlash (s : String) : String :=
  match s.data with
  | '/' :: a :: ':' :: rest => if a.isAlpha then ⟨a :: ':' :: rest⟩ else s
  | _ => s

/-- `replace(/^["']+|["']+$/g, "")`. -/
def stripQuotes (s : String) : String :=
  let isQuote := fun c => c = '"' || c = '\''
  ⟨((s.data.dropWhile isQuote).reverse.dropWhile isQuote).reverse⟩

/-- `normalizeRequestedPath`. -/
def normalizeRequestedPath (requestedPath : String) : String :=
  ⟨((stripQuotes (stripDriveSlash (stripFileScheme
      (jsTrim requestedPath)))).data.filter (fun c => ¬(c = '\x00')))⟩

/-- `resolveFilePath`: resolve the cleaned request against the working
directory and accept the result when the resolved string starts with the
normalized working directory string. -/
def resolveFilePath (cwd : String) (requestedPath : String)
    (workingDirectory : Option String) : Option String :=
  match jsTruthy workingDirectory with
  | none => none
  | some wd =>
    let cleanedPath := normalizeRequestedPath requestedPath
    let resolvedPath := resolveTwo cwd wd cleanedPath
    let normalizedWorking := resolveOne cwd wd
    let normalizedResolved := resolveOne cwd resolvedPath
    if jsStartsWith normalizedResolved normalizedWorking then
      some normalizedResolved
    else none

/-- Containment in a directory, written from the spec's words: the
resolved path is the working directory itself or lies strictly below
it. -/
def pathInsideDirectory (wd resolved : String) : Bool :=
  resolved == wd || jsStartsWith resolved (wd ++ "/")

/-- The access-control portion of `handleFileRequest`: 400 on missing
parameters, 403 when `resolveFilePath` rejects, otherwise the resolved
path is served. -/
inductive FileAccessOutcome where
  | missingParams : FileAccessOutcome
  | forbidden : FileAccessOutcome
  | proceed (resolved : String) : FileAccessOutcome
deriving Repr, BEq

/-- `handleFileRequest` up to the path check. -/
def fileRequestGate (cwd : String) (path wd : Option String) :
    FileAccessOutcome :=
  match jsTruthy path, jsTruthy wd with
  | some p, some w =>
      match resolveFilePath cwd p (some w) with
      | some r => FileAccessOutcome.proceed r
      | none => FileAccessOutcome.forbidden
  | _, _ => FileAccessOutcome.missingParams

/-! ## `src/backend/handlers/abort.ts` -/

/-- A registry entry (`RequestState`): whether a kill callback was
registered; the abort signal and deletion are outcome fields. -/
structure RequestStateM where
  hasKill : Bool := false
deriving Repr, BEq

/-- Abort handler responses. -/
inductive AbortResp where
  | badRequest : AbortResp
  | notFound : AbortResp
  | success : AbortResp
deriving Repr, DecidableEq, BEq

/-- Everything `handleAbortRequest` does: the HTTP-shaped response, the
registry afterwards, whether the abort signal fired and whether the kill
callback ran. -/
structure AbortOutcome where
  resp : AbortResp
  registry : List (String × RequestStateM)
  abortSignaled : Bool
  killInvoked : Bool
deriving Repr, BEq

/-- `handleAbortRequest`.  The registry is the shared `Map` keyed by
requestId (at most one entry per key; `Map.delete` is modelled by
removing every pair with that key).  A missing or empty requestId is the
400 branch; an absent entry the 404 branch; otherwise abort, kill (when
registered) and delete. -/
def handleAbortRequest (requestId : Option String)
    (reg : List (String × RequestStateM)) : AbortOutcome :=
  match jsTruthy requestId with
  | none => ⟨AbortResp.badRequest, reg, false, false⟩
  | some id =>
    match reg.lookup id with
    | none => ⟨AbortResp.notFound, reg, false, false⟩
    | some st =>
        ⟨AbortResp.success, reg.filter (fun e => e.1 != id), true, st.hasKill⟩

/-! ## `src/backend/handlers/projects.ts` and `projects/store.ts` -/

/-- `replace(/\\/g, "/")`. -/
def slashify (s : String) : String :=
  ⟨s.data.map (fun c => if c = '\\' then '/' else c)⟩

/-- `parseProjects`: split the env seed on `;`/`,`, trim, drop empties. -/
def parseProjects (raw : String) : List String :=
  ((jsSplit raw (fun c => c = ';' || c = ',')).map jsTrim).filter
    (fun v => v != "")

/-- `normalizeProjectPath`: `path.resolve(input)` then backslash
normalization. -/
def normalizeProjectPath (cwd input : String) : String :=
  slashify (resolveOne cwd input)

/-- `Array.from(new Set(xs))`: first occurrences, in order. -/
def dedupGo (seen : List String) : List String → List String
  | [] => []
  | x :: rest =>
      if seen.contains x then dedupGo seen rest
      else x :: dedupGo (x :: seen) rest

/-- Order-preserving deduplication. -/
def dedupKeepFirst (l : List String) : List String := dedupGo [] l

/-- A JSON string test for the stored project entries. -/
def isJsonString : Json → Bool
  | Json.str _ => true
  | _ => false

/-- The string payload of a JSON string. -/
def strOfJson : Json → String
  | Json.str s => s
  | _ => ""

/-- `loadProjects`: env-seeded paths, then the store file
(`{projects: [...]}`); a missing/unreadable/empty store leaves the env
list as is (no deduplication on that branch); a store entry that is not
a string makes `path.resolve` throw (`none`, the caller's 500 path). -/
def loadProjects (cwd env : String) (storeContent : Option String) :
    Option (List String) :=
  let fromEnv := (parseProjects env).map (normalizeProjectPath cwd)
  match storeContent with
  | none => some fromEnv
  | some content =>
    if content = "" then some fromEnv
    else
      let stored : List Json :=
        match jsonParse content with
        | some (Json.obj fields) =>
            match fields.lookup "projects" with
            | some (Json.arr items) => items
            | _ => []
        | _ => []
      if stored.all isJsonString then
        some (dedupKeepFirst
          (fromEnv ++ stored.map (fun j => normalizeProjectPath cwd (strOfJson j))))
      else none

/-- One project of the response. -/
structure ProjectInfo where
  path : String
  encodedName : String
deriving Repr, BEq

/-- Positional map with indices from `n`. -/
def mapWithIndexGo (f : Nat → String → ProjectInfo) (n : Nat) :
    List String → List ProjectInfo
  | [] => []
  | x :: rest => f n x :: mapWithIndexGo f (n + 1) rest

/-- `handleProjectsRequest`: fall back to the process working directory
when no project is configured, then emit positional `project-N` names
with backslashes normalized (`none` is the catch-all 500 branch). -/
def handleProjectsRequest (cwd env : String) (storeContent : Option String) :
    Option (List ProjectInfo) :=
  (loadProjects cwd env storeContent).map (fun projects =>
    let resolved := if projects.isEmpty then [cwd] else projects
    mapWithIndexGo
      (fun i p => ⟨slashify p, "project-" ++ toString (i + 1)⟩) 0 resolved)

/-- The content items carried by the `claude_json` lines of a response
stream (error/done lines carry none). -/
def contentStreamSR (responses : List StreamResponse) : List ClaudeContentItem :=
  responses.flatMap (fun r =>
    match r with
    | StreamResponse.claude_json m => m.content.getD []
    | _ => [])

/-- The `id` / `tool_use_id` of a content item. -/
def contentItemToolId : ClaudeContentItem → Option String
  | ClaudeContentItem.toolUse id _ _ => some id
  | ClaudeContentItem.toolResult id _ _ => some id
  | _ => none

/-- A completed sample tool part used by concrete instances. -/
def sampleCompleted : ToolPart :=
  ⟨"c9", "read", { status := ToolStatus.completed, time := ⟨1, 2⟩ }⟩

/-- A still-running sample tool part used by concrete instances. -/
def sampleRunning : ToolPart :=
  ⟨"call1", "grep", { status := ToolStatus.running, time := ⟨5, 9⟩ }⟩

/-- An export with one assistant turn: text, a completed tool, then more
text — the flush loop emits two assistant messages plus one tool result
for it. -/
def exConvMsgs : List ExportMessage :=
  [{ role := Role.assistant, sessionID := some "s", timeCreated := some 1000,
     parts := [ExportPart.text "a", ExportPart.tool sampleCompleted,
       ExportPart.text "b"] }]

/-! ## Theorems -/

/-- Claim C3, counterexample: the claim maps `default` to the `"build"`
agent, but `getAgentName` sends `default` to `"plan"` — only
`acceptEdits` selects `"build"`. -/
theorem getAgentName_default_counterexample :
    getAgentName (some PermissionMode.default) = "plan" ∧
    getAgentName (some PermissionMode.default) ≠ "build" := by
  exact ⟨rfl, by decide⟩

/-- Claim C3 (amended): the agent selector sends `acceptEdits` to the
`"build"` agent and every other permission mode — `plan`, `default`, or
missing — to the `"plan"` agent. -/
theorem getAgentName_mapping :
    (∀ mode, getAgentName mode =
      if mode = some PermissionMode.acceptEdits then "build" else "plan") ∧
    getAgentName (some PermissionMode.plan) = "plan" ∧
    getAgentName (some PermissionMode.default) = "plan" ∧
    getAgentName (some PermissionMode.acceptEdits) = "build" ∧
    getAgentName none = "plan" := by
  exact ⟨fun _ => rfl, rfl, rfl, rfl, rfl⟩

/-- Claim C6: tool-name canonicalization is a function given by the fixed
override table on the lowercased name and PascalCase segment joining
otherwise; `"web_fetch"` (not in the table) becomes `"WebFetch"` by
splitting, `"todowrite"` takes the fixed override `"TodoWrite"`, not the
capitalization `"Todowrite"`. -/
theorem toClaudeToolName_canonicalization :
    toClaudeToolName "web_fetch" = "WebFetch" ∧
    toClaudeToolName "todowrite" = "TodoWrite" ∧
    toClaudeToolName "todowrite" ≠ "Todowrite" ∧
    toClaudeToolName "TODOWRITE" = "TodoWrite" ∧
    toClaudeToolName "exit-plan-mode" = "ExitPlanMode" ∧
    (∀ tool, toClaudeToolName tool =
      match TOOL_NAME_OVERRIDES.lookup (jsToLower tool) with
      | some v => v
      | none =>
          String.join
            ((jsSplit tool (fun c => c = '_' || c = '-')).map capitalize)) := by
  refine ⟨by decide, by decide, by decide, by decide, by decide, fun _ => rfl⟩

/-- Claim C8: the source's own guard comments promise traversal outside
the working directory is rejected, and the documented scenario holds
(`../../etc/passwd` resolves to `/home/etc/passwd` and is refused with
403); but the check is a raw string-prefix test, so a sibling directory
sharing the prefix escapes: `../proj2/secret.txt` resolves outside
`/home/user/proj` yet is accepted and served. -/
theorem resolveFilePath_sibling_escape :
    resolveFilePath "/srv" "../proj2/secret.txt" (some "/home/user/proj") =
      some "/home/user/proj2/secret.txt" ∧
    pathInsideDirectory "/home/user/proj" "/home/user/proj2/secret.txt" =
      false ∧
    fileRequestGate "/srv" (some "../proj2/secret.txt")
      (some "/home/user/proj") =
      FileAccessOutcome.proceed "/home/user/proj2/secret.txt" ∧
    resolveFilePath "/srv" "../../etc/passwd" (some "/home/user/proj") =
      none ∧
    fileRequestGate "/srv" (some "../../etc/passwd")
      (some "/home/user/proj") = FileAccessOutcome.forbidden := by
  exact ⟨rfl, rfl, rfl, rfl, rfl⟩

/-- Claim C9, counterexample: an empty requestId has no live registry
entry, yet the handler answers with the 400 branch (`"Request ID is
required"`), not the claimed 404 not-found result. -/
theorem abort_empty_id_counterexample :
    (handleAbortRequest (some "") []).resp = AbortResp.badRequest ∧
    AbortResp.badRequest ≠ AbortResp.notFound := by
  exact ⟨rfl, by decide⟩

/-- Entries filtered out by key cannot be looked up. -/
theorem lookup_filter_ne_eq_none (id : String)
    (reg : List (String × RequestStateM)) :
    (reg.filter (fun e => e.1 != id)).lookup id = none := by
  induction reg with
  | nil => rfl
  | cons hd tl ih =>
      obtain ⟨k, v⟩ := hd
      by_cases h : k = id
      · simpa [List.filter_cons, h] using ih
      · have h2 : ¬id = k := fun hc => h hc.symm
        have hk : (k != id) = true := by simp [h]
        have hbeq : (id == k) = false := by simp [h2]
        simp [List.filter_cons, hk, List.lookup, hbeq, ih]

/-- Claim C9 (amended): for a nonempty requestId (the route never matches
an empty one; an empty/missing id takes the 400 branch instead), an
absent registry entry yields the not-found response with no signal, no
kill and an unchanged registry; and a second abort on the same id always
finds the entry gone — the first success removed it — so it returns
not-found and never invokes the kill callback again.  The handler is a
total function: it never throws. -/
theorem handleAbortRequest_idempotent (id : String)
    (reg : List (String × RequestStateM)) (hid : id ≠ "") :
    (reg.lookup id = none →
      handleAbortRequest (some id) reg =
        ⟨AbortResp.notFound, reg, false, false⟩) ∧
    (handleAbortRequest (some id)
        (handleAbortRequest (some id) reg).registry).resp =
      AbortResp.notFound ∧
    (handleAbortRequest (some id)
        (handleAbortRequest (some id) reg).registry).killInvoked = false ∧
    (handleAbortRequest (some id)
        (handleAbortRequest (some id) reg).registry).abortSignaled = false := by
  have htr : jsTruthy (some id) = some id := by simp [jsTruthy, hid]
  constructor
  · intro hnone
    simp [handleAbortRequest, htr, hnone]
  · cases hlook : reg.lookup id with
    | none =>
        simp [handleAbortRequest, htr, hlook]
    | some st =>
        simp [handleAbortRequest, htr, hlook, lookup_filter_ne_eq_none]

/-- Claim C9 witness: the amended statement at a concrete registry with a
live `"r1"` entry carrying a kill callback. -/
theorem handleAbortRequest_idempotent_witness :
    (([("r2", ({} : RequestStateM))] :
        List (String × RequestStateM)).lookup "r1" = none →
      handleAbortRequest (some "r1") [("r2", {})] =
        ⟨AbortResp.notFound, [("r2", {})], false, false⟩) ∧
    (handleAbortRequest (some "r1")
        (handleAbortRequest (some "r1")
          [("r2", {}), ("r1", { hasKill := true })]).registry).resp =
      AbortResp.notFound ∧
    (handleAbortRequest (some "r1")
        (handleAbortRequest (some "r1")
          [("r2", {}), ("r1", { hasKill := true })]).registry).killInvoked =
      false ∧
    (handleAbortRequest (some "r1")
        (handleAbortRequest (some "r1")
          [("r2", {}), ("r1", { hasKill := true })]).registry).abortSignaled =
      false := by
  refine ⟨(handleAbortRequest_idempotent "r1" [("r2", {})]
    (by decide)).1, ?_, ?_, ?_⟩
  · exact (handleAbortRequest_idempotent "r1"
      [("r2", {}), ("r1", { hasKill := true })] (by decide)).2.1
  · exact (handleAbortRequest_idempotent "r1"
      [("r2", {}), ("r1", { hasKill := true })] (by decide)).2.2.1
  · exact (handleAbortRequest_idempotent "r1"
      [("r2", {}), ("r1", { hasKill := true })] (by decide)).2.2.2

/-- `mapWithIndexGo` preserves length. -/
theorem mapWithIndexGo_length (f : Nat → String → ProjectInfo) (n : Nat)
    (l : List String) : (mapWithIndexGo f n l).length = l.length := by
  induction l generalizing n with
  | nil => rfl
  | cons x rest ih => simp [mapWithIndexGo, ih]

/-- Elementwise description of `mapWithIndexGo`. -/
theorem mapWithIndexGo_get (f : Nat → String → ProjectInfo) (n : Nat)
    (l : List String) (i : Nat) (h : i < (mapWithIndexGo f n l).length)
    (h' : i < l.length) :
    (mapWithIndexGo f n l).get ⟨i, h⟩ = f (n + i) (l.get ⟨i, h'⟩) := by
  induction l generalizing n i with
  | nil => exact absurd h' (by simp)
  | cons x rest ih =>
      cases i with
      | zero => rfl
      | succ j =>
          have hj : j < (mapWithIndexGo f (n + 1) rest).length := by
            simpa [mapWithIndexGo] using h
          have hj' : j < rest.length := by simpa using h'
          have := ih (n + 1) j hj hj'
          simpa [mapWithIndexGo, Nat.add_assoc, Nat.add_comm 1 j] using this

/-- Every element of `mapWithIndexGo` comes from an element of the
input. -/
theorem mapWithIndexGo_mem (f : Nat → String → ProjectInfo) (n : Nat)
    (l : List String) (q : ProjectInfo) (hq : q ∈ mapWithIndexGo f n l) :
    ∃ i x, q = f i x ∧ x ∈ l := by
  induction l generalizing n with
  | nil => simp [mapWithIndexGo] at hq
  | cons x rest ih =>
      simp only [mapWithIndexGo, List.mem_cons] at hq
      cases hq with
      | inl h => exact ⟨n, x, h, List.mem_cons_self _ _⟩
      | inr h =>
          obtain ⟨i, y, hy, hmem⟩ := ih (n + 1) h
          exact ⟨i, y, hy, List.mem_cons_of_mem _ hmem⟩

/-- `slashify` never leaves a backslash. -/
theorem slashify_no_backslash (s : String) : ¬('\\' ∈ (slashify s).data) := by
  intro hmem
  simp only [slashify, List.mem_map] at hmem
  obtain ⟨c, _, hc⟩ := hmem
  by_cases h : c = '\\'
  · rw [if_pos h] at hc
    exact absurd hc (by decide)
  · rw [if_neg h] at hc
    exact h hc

/-- Claim C10: whenever the project-list handler answers (it throws only
into its 500 catch, which returns no list), the projects array is
non-empty; with no env-var projects and no store file it is exactly one
entry for the process working directory; encoded names are positional
`project-N` in list order; and no returned path contains a backslash. -/
theorem handleProjectsRequest_spec (cwd env : String)
    (storeContent : Option String) (ps : List ProjectInfo)
    (hps : handleProjectsRequest cwd env storeContent = some ps) :
    ps ≠ [] ∧
    (∀ i (h : i < ps.length),
      (ps.get ⟨i, h⟩).encodedName = "project-" ++ toString (i + 1)) ∧
    (∀ p ∈ ps, ¬('\\' ∈ p.path.data)) ∧
    (parseProjects env = [] → storeContent = none →
      ps = [⟨slashify cwd, "project-1"⟩]) := by
  simp only [handleProjectsRequest, Option.map_eq_some'] at hps
  obtain ⟨projects, hload, hmap⟩ := hps
  set resolved := if projects.isEmpty then [cwd] else projects with hres
  have hresolved_ne : resolved ≠ [] := by
    rw [hres]
    by_cases h : projects.isEmpty
    · simp [h]
    · rw [if_neg h]
      intro hnil
      apply h
      rw [hnil]
      rfl
  subst hmap
  refine ⟨?_, ?_, ?_, ?_⟩
  · intro hnil
    have := mapWithIndexGo_length
      (fun i p => ⟨slashify p, "project-" ++ toString (i + 1)⟩) 0 resolved
    rw [hnil] at this
    exact hresolved_ne (List.eq_nil_of_length_eq_zero this.symm)
  · intro i h
    have hlen := mapWithIndexGo_length
      (fun i p => ⟨slashify p, "project-" ++ toString (i + 1)⟩) 0 resolved
    have h3 : i < resolved.length := by rw [hlen] at h; exact h
    rw [mapWithIndexGo_get _ 0 resolved i h h3]
    simp
  · intro p hp
    obtain ⟨i, x, hqx, _⟩ := mapWithIndexGo_mem _ _ _ _ hp
    rw [hqx]
    exact slashify_no_backslash x
  · intro henv hstore
    have hload' : loadProjects cwd env storeContent = some [] := by
      rw [hstore]
      simp [loadProjects, henv]
    rw [hload'] at hload
    have hproj : projects = ([] : List String) := by
      exact Option.some.inj hload.symm
    rw [hres, hproj]
    rfl

/-- Claim C10 witness: with an empty environment seed and no store file,
the handler returns exactly the process working directory as
`project-1`. -/
theorem handleProjectsRequest_spec_witness :
    handleProjectsRequest "/app" "" none =
      some [⟨"/app", "project-1"⟩] ∧
    ([⟨"/app", "project-1"⟩] : List ProjectInfo) ≠ [] ∧
    (∀ i (h : i < ([⟨"/app", "project-1"⟩] : List ProjectInfo).length),
      (([⟨"/app", "project-1"⟩] : List ProjectInfo).get ⟨i, h⟩).encodedName =
        "project-" ++ toString (i + 1)) ∧
    (∀ p ∈ ([⟨"/app", "project-1"⟩] : List ProjectInfo),
      ¬('\\' ∈ p.path.data)) ∧
    (parseProjects "" = [] → (none : Option String) = none →
      ([⟨"/app", "project-1"⟩] : List ProjectInfo) =
        [⟨slashify "/app", "project-1"⟩]) := by
  have h := handleProjectsRequest_spec "/app" "" none
    [⟨"/app", "project-1"⟩] rfl
  exact ⟨rfl, h.1, h.2.1, h.2.2.1, h.2.2.2⟩

/-- Claim C7: the reconciler strips a leading byte-order mark, extracts
the substring from the first `[` to the last `]` when both exist in
order, strips trailing commas before `}`/`]`, and JSON-parses; a trailing
comma such as `[...},]` still yields the record; and a parse failure
degrades to an empty conversations list with diagnostic metadata (never
an error response). -/
theorem handleHistories_defensive_parse :
    (∀ (filterPath : Option String) (result : CommandResult),
      result.success = true → jsTrim result.stdout ≠ "" →
      jsonParse (stripTrailingCommas (cleanOutput result.stdout)) = none →
      handleHistoriesRequest filterPath result =
        HistoriesResult.ok []
          { count := 0
            parseError := some "SyntaxError: Unexpected token in JSON"
            dataLen := 0
            dataType := "error"
            rawHead := takeChars 200
              (jsTrim (stripTrailingCommas (cleanOutput result.stdout))) }) ∧
    handleHistoriesRequest none
        { stdout := "[\x7b\"id\":\"s1\",\"created\":1,\"updated\":2\x7d,]" } =
      HistoriesResult.ok
        [{ sessionId := "s1"
           startTime := "1970-01-01T00:00:00.001Z"
           lastTime := "1970-01-01T00:00:00.002Z"
           messageCount := 0
           lastMessagePreview := "" }]
        { count := 1
          parseError := none
          dataLen := 1
          dataType := "array"
          rawHead := "[\x7b\"id\":\"s1\",\"created\":1,\"updated\":2\x7d]" } ∧
    cleanOutput "﻿noise [1,2] trailing" = "[1,2]" ∧
    stripTrailingCommas "[\x7b\"a\":1,\x7d, ]" = "[\x7b\"a\":1\x7d]" := by
  refine ⟨?_, by rfl, by rfl, by rfl⟩
  intro filterPath result hsucc htrim hparse
  unfold handleHistoriesRequest
  rw [if_neg (by simp [hsucc, htrim])]
  simp only [hparse]
  cases hjt : jsTruthy filterPath with
  | none => simp [hjt, List.mapM.loop, stableSort]
  | some t => simp [hjt, List.mapM.loop, stableSort]

/-- Claim C7 witness: the defensive branch applied to a concrete
unparseable CLI output. -/
theorem handleHistories_defensive_parse_witness :
    handleHistoriesRequest none { stdout := "oops not json" } =
      HistoriesResult.ok []
        { count := 0
          parseError := some "SyntaxError: Unexpected token in JSON"
          dataLen := 0
          dataType := "error"
          rawHead := takeChars 200
            (jsTrim (stripTrailingCommas (cleanOutput "oops not json"))) } := by
  exact handleHistories_defensive_parse.1 none { stdout := "oops not json" }
    rfl (by decide) (by rfl)

/-- `sendInit` output: one init line on the first call, nothing later. -/
theorem sendInit_snd (req : ChatRequestModel) (st : ChatState) (s : String) :
    (sendInit req st s).2 =
      if st.initSent then []
      else [StreamResponse.claude_json
        (createInitMessage s (req.workingDirectory.getD "")
          ((req.permissionMode.map permissionModeString).getD "default") [])] := by
  unfold sendInit
  split <;> rfl

/-- `sendInit` always leaves the flag set. -/
theorem sendInit_fst (req : ChatRequestModel) (st : ChatState) (s : String) :
    (sendInit req st s).1 = { st with initSent := true } := by
  unfold sendInit
  split
  · next h => cases st; simp_all
  · rfl

/-- The dispatch never emits a done line. -/
theorem dispatchOutputs_countDone (resolved : Option String) (ev : CliEvent) :
    (dispatchOutputs resolved ev).countP isDoneLine = 0 := by
  cases ev <;> (unfold dispatchOutputs; repeat' split) <;> simp [isDoneLine]

/-- The dispatch never emits an init line. -/
theorem dispatchOutputs_countInit (resolved : Option String) (ev : CliEvent) :
    (dispatchOutputs resolved ev).countP isInitLine = 0 := by
  cases ev <;> (unfold dispatchOutputs; repeat' split) <;>
    simp [isInitLine, createAssistantMessage, createUserMessage]

/-- The dispatch never emits a result line. -/
theorem dispatchOutputs_countResult (resolved : Option String) (ev : CliEvent) :
    (dispatchOutputs resolved ev).countP isResultLine = 0 := by
  cases ev <;> (unfold dispatchOutputs; repeat' split) <;>
    simp [isResultLine, createAssistantMessage, createUserMessage]

/-- The init step never emits a done line. -/
theorem initStep_countDone (req : ChatRequestModel) (st : ChatState)
    (resolved : Option String) :
    ((initStep req st resolved).2).countP isDoneLine = 0 := by
  unfold initStep
  split
  · rw [sendInit_snd]
    split <;> simp [isDoneLine]
  · rfl

/-- The init step never emits a result line. -/
theorem initStep_countResult (req : ChatRequestModel) (st : ChatState)
    (resolved : Option String) :
    ((initStep req st resolved).2).countP isResultLine = 0 := by
  unfold initStep
  split
  · rw [sendInit_snd]
    split <;> simp [isResultLine, createInitMessage]
  · rfl

/-- Init lines emitted by the init step, as a function of the flag. -/
theorem initStep_countInit (req : ChatRequestModel) (st : ChatState)
    (resolved : Option String) :
    ((initStep req st resolved).2).countP isInitLine =
      (if st.initSent then 0
       else if (initStep req st resolved).1.initSent then 1 else 0) := by
  unfold initStep
  cases resolved with
  | none => cases h : st.initSent <;> simp [h]
  | some s =>
      rw [sendInit_snd, sendInit_fst]
      cases h : st.initSent <;> simp [h, isInitLine, createInitMessage]

/-- The init-step state: only the flag may change. -/
theorem initStep_fst_sessionId (req : ChatRequestModel) (st : ChatState)
    (resolved : Option String) :
    (initStep req st resolved).1.sessionId = st.sessionId := by
  unfold initStep
  cases resolved with
  | none => rfl
  | some s => rw [sendInit_fst]

/-- The init step keeps a set flag set. -/
theorem initStep_fst_initSent_mono (req : ChatRequestModel) (st : ChatState)
    (resolved : Option String) (h : st.initSent = true) :
    (initStep req st resolved).1.initSent = true := by
  unfold initStep
  cases resolved with
  | none => exact h
  | some s => rw [sendInit_fst]

/-- A truthy resolved session id forces the flag. -/
theorem initStep_fst_initSent_some (req : ChatRequestModel) (st : ChatState)
    (s : String) : (initStep req st (some s)).1.initSent = true := by
  show (sendInit req st s).1.initSent = true
  rw [sendInit_fst]

/-- `errorTextStep` only touches `errorText`. -/
theorem errorTextStep_initSent (st : ChatState) (ev : CliEvent) :
    (errorTextStep st ev).initSent = st.initSent := by
  cases ev <;> rfl

/-- `errorTextStep` keeps the session id. -/
theorem errorTextStep_sessionId (st : ChatState) (ev : CliEvent) :
    (errorTextStep st ev).sessionId = st.sessionId := by
  cases ev <;> rfl

/-- `assignSession` only touches `sessionId`. -/
theorem assignSession_initSent (st : ChatState) (resolved : Option String) :
    (assignSession st resolved).initSent = st.initSent := by
  cases resolved with
  | none => rfl
  | some s =>
      by_cases h : jsTruthy st.sessionId = none <;> simp [assignSession, h]

/-- `assignSession` keeps the error text. -/
theorem assignSession_errorText (st : ChatState) (resolved : Option String) :
    (assignSession st resolved).errorText = st.errorText := by
  cases resolved with
  | none => rfl
  | some s =>
      by_cases h : jsTruthy st.sessionId = none <;> simp [assignSession, h]

/-- When nothing resolves, `assignSession` is the identity. -/
theorem assignSession_none (st : ChatState) : assignSession st none = st := rfl

/-- The emitted lines of one event. -/
theorem handleEvent_snd (req : ChatRequestModel) (st : ChatState)
    (ev : CliEvent) :
    (handleEvent req st ev).2 =
      (initStep req (assignSession st (resolvedSession st ev.sid))
          (resolvedSession st ev.sid)).2 ++
        dispatchOutputs (resolvedSession st ev.sid) ev := rfl

/-- The state after one event. -/
theorem handleEvent_fst (req : ChatRequestModel) (st : ChatState)
    (ev : CliEvent) :
    (handleEvent req st ev).1 =
      errorTextStep
        (initStep req (assignSession st (resolvedSession st ev.sid))
          (resolvedSession st ev.sid)).1 ev := rfl

/-- One event never emits a done line. -/
theorem handleEvent_countDone (req : ChatRequestModel) (st : ChatState)
    (ev : CliEvent) : ((handleEvent req st ev).2).countP isDoneLine = 0 := by
  rw [handleEvent_snd, List.countP_append, initStep_countDone,
    dispatchOutputs_countDone]

/-- One event never emits a result line. -/
theorem handleEvent_countResult (req : ChatRequestModel) (st : ChatState)
    (ev : CliEvent) : ((handleEvent req st ev).2).countP isResultLine = 0 := by
  rw [handleEvent_snd, List.countP_append, initStep_countResult,
    dispatchOutputs_countResult]

/-- Init lines emitted by one event, as a function of the flag. -/
theorem handleEvent_countInit (req : ChatRequestModel) (st : ChatState)
    (ev : CliEvent) :
    ((handleEvent req st ev).2).countP isInitLine =
      (if st.initSent then 0
       else if (handleEvent req st ev).1.initSent then 1 else 0) := by
  rw [handleEvent_snd, List.countP_append, dispatchOutputs_countInit,
    handleEvent_fst, errorTextStep_initSent, initStep_countInit,
    assignSession_initSent]
  simp

/-- The flag is monotone across one event. -/
theorem handleEvent_initSent_mono (req : ChatRequestModel) (st : ChatState)
    (ev : CliEvent) (h : st.initSent = true) :
    (handleEvent req st ev).1.initSent = true := by
  rw [handleEvent_fst, errorTextStep_initSent]
  exact initStep_fst_initSent_mono _ _ _ (by rw [assignSession_initSent]; exact h)

/-- An event carrying a truthy session id sets the flag. -/
theorem handleEvent_initSent_of_truthy (req : ChatRequestModel)
    (st : ChatState) (ev : CliEvent) (s : String)
    (h : jsTruthy ev.sid = some s) :
    (handleEvent req st ev).1.initSent = true := by
  have hres : resolvedSession st ev.sid = some s := by
    unfold resolvedSession
    rw [h]
  rw [handleEvent_fst, errorTextStep_initSent, hres]
  exact initStep_fst_initSent_some _ _ _

/-- Without any session id, one event changes neither the session id nor
the flag, and emits neither init nor result lines. -/
theorem handleEvent_sessionless (req : ChatRequestModel) (st : ChatState)
    (ev : CliEvent) (hev : jsTruthy ev.sid = none)
    (hst : jsTruthy st.sessionId = none) :
    (handleEvent req st ev).1.sessionId = st.sessionId ∧
    (handleEvent req st ev).1.initSent = st.initSent ∧
    ((handleEvent req st ev).2).countP isInitLine = 0 ∧
    ((handleEvent req st ev).2).countP isResultLine = 0 := by
  have hres : resolvedSession st ev.sid = none := by
    unfold resolvedSession
    rw [hev, hst]
  refine ⟨?_, ?_, ?_, handleEvent_countResult _ _ _⟩
  · rw [handleEvent_fst, errorTextStep_sessionId, hres, assignSession_none,
      initStep_fst_sessionId]
  · rw [handleEvent_fst, errorTextStep_initSent, hres, assignSession_none]
    rfl
  · rw [handleEvent_snd, List.countP_append, dispatchOutputs_countInit, hres]
    rfl

/-- `sendInit` emits no done line. -/
theorem sendInit_countDone (req : ChatRequestModel) (st : ChatState)
    (s : String) : ((sendInit req st s).2).countP isDoneLine = 0 := by
  rw [sendInit_snd]
  split <;> simp [isDoneLine]

/-- `sendInit` emits no result line. -/
theorem sendInit_countResult (req : ChatRequestModel) (st : ChatState)
    (s : String) : ((sendInit req st s).2).countP isResultLine = 0 := by
  rw [sendInit_snd]
  split <;> simp [isResultLine, createInitMessage]

/-- `sendInit` emits one init line exactly when the flag was clear. -/
theorem sendInit_countInit (req : ChatRequestModel) (st : ChatState)
    (s : String) :
    ((sendInit req st s).2).countP isInitLine =
      (if st.initSent then 0 else 1) := by
  rw [sendInit_snd]
  split <;> simp [isInitLine, createInitMessage]

/-- The streaming loop emits no done line. -/
theorem chatFold_countDone (req : ChatRequestModel) (events : List CliEvent) :
    ∀ (st : ChatState) (out : List StreamResponse),
      (((events.foldl (chatStep req) (st, out)).2)).countP isDoneLine =
        out.countP isDoneLine := by
  induction events with
  | nil => intro st out; rfl
  | cons e rest ih =>
      intro st out
      rw [List.foldl_cons]
      show ((rest.foldl (chatStep req)
        ((handleEvent req st e).1, out ++ (handleEvent req st e).2)).2).countP
          isDoneLine = out.countP isDoneLine
      rw [ih, List.countP_append, handleEvent_countDone]
      omega

/-- The streaming loop emits no result line. -/
theorem chatFold_countResult (req : ChatRequestModel)
    (events : List CliEvent) :
    ∀ (st : ChatState) (out : List StreamResponse),
      (((events.foldl (chatStep req) (st, out)).2)).countP isResultLine =
        out.countP isResultLine := by
  induction events with
  | nil => intro st out; rfl
  | cons e rest ih =>
      intro st out
      rw [List.foldl_cons]
      show ((rest.foldl (chatStep req)
        ((handleEvent req st e).1, out ++ (handleEvent req st e).2)).2).countP
          isResultLine = out.countP isResultLine
      rw [ih, List.countP_append, handleEvent_countResult]
      omega

/-- A set init flag stays set across the loop. -/
theorem chatFold_initSent_mono (req : ChatRequestModel)
    (events : List CliEvent) :
    ∀ (st : ChatState) (out : List StreamResponse), st.initSent = true →
      ((events.foldl (chatStep req) (st, out)).1).initSent = true := by
  induction events with
  | nil => intro st out h; exact h
  | cons e rest ih =>
      intro st out h
      rw [List.foldl_cons]
      exact ih _ _ (handleEvent_initSent_mono req st e h)

/-- The loop's init-line count tracks the flag. -/
theorem chatFold_countInit (req : ChatRequestModel) (events : List CliEvent) :
    ∀ (st : ChatState) (out : List StreamResponse),
      out.countP isInitLine = (if st.initSent then 1 else 0) →
      ((events.foldl (chatStep req) (st, out)).2).countP isInitLine =
        (if ((events.foldl (chatStep req) (st, out)).1).initSent then 1
         else 0) := by
  induction events with
  | nil => intro st out h; exact h
  | cons e rest ih =>
      intro st out h
      rw [List.foldl_cons]
      show ((rest.foldl (chatStep req)
        ((handleEvent req st e).1, out ++ (handleEvent req st e).2)).2).countP
          isInitLine = _
      apply ih
      rw [List.countP_append, h, handleEvent_countInit]
      cases hs : st.initSent with
      | true => simp [handleEvent_initSent_mono req st e hs]
      | false => simp

/-- An event carrying a session id anywhere in the stream sets the
flag. -/
theorem chatFold_initSent_of_truthy (req : ChatRequestModel)
    (events : List CliEvent)
    (hex : ∃ ev ∈ events, jsTruthy ev.sid ≠ none) :
    ∀ (st : ChatState) (out : List StreamResponse),
      ((events.foldl (chatStep req) (st, out)).1).initSent = true := by
  induction events with
  | nil => simp at hex
  | cons e rest ih =>
      intro st out
      rw [List.foldl_cons]
      obtain ⟨ev, hmem, hne⟩ := hex
      rcases List.mem_cons.mp hmem with heq | hmem'
      · subst heq
        obtain ⟨s, hs⟩ := Option.ne_none_iff_exists'.mp hne
        exact chatFold_initSent_mono req rest _ _
          (handleEvent_initSent_of_truthy req st ev s hs)
      · exact ih ⟨ev, hmem', hne⟩ _ _

/-- A stream with no session id anywhere leaves the state sessionless and
emits no init line. -/
theorem chatFold_sessionless (req : ChatRequestModel)
    (events : List CliEvent)
    (hall : ∀ ev ∈ events, jsTruthy ev.sid = none) :
    ∀ (st : ChatState) (out : List StreamResponse),
      jsTruthy st.sessionId = none →
      ((events.foldl (chatStep req) (st, out)).1).sessionId = st.sessionId ∧
      ((events.foldl (chatStep req) (st, out)).1).initSent = st.initSent ∧
      ((events.foldl (chatStep req) (st, out)).2).countP isInitLine =
        out.countP isInitLine := by
  induction events with
  | nil => intro st out _; exact ⟨rfl, rfl, rfl⟩
  | cons e rest ih =>
      intro st out hst
      rw [List.foldl_cons]
      have he := hall e (List.mem_cons_self _ _)
      have hse := handleEvent_sessionless req st e he hst
      have hst' : jsTruthy ((handleEvent req st e).1).sessionId = none := by
        rw [hse.1]; exact hst
      have ihr := ih (fun ev hm => hall ev (List.mem_cons_of_mem _ hm))
        ((handleEvent req st e).1) (out ++ (handleEvent req st e).2) hst'
      refine ⟨ihr.1.trans hse.1, ihr.2.1.trans hse.2.1, ?_⟩
      have hc := ihr.2.2
      rw [List.countP_append, hse.2.2.1] at hc
      exact hc.trans (Nat.add_zero _)

/-- The finished stream has exactly one done line. -/
theorem chatBody_countDone (req : ChatRequestModel) (run : CliRun) (d : Int) :
    (chatBody req run d).countP isDoneLine = 1 := by
  have hfold : ((run.events.foldl (chatStep req)
      (({ sessionId := req.sessionId } : ChatState), [])).2).countP
        isDoneLine = 0 :=
    chatFold_countDone req run.events _ []
  simp only [chatBody]
  rw [List.countP_append]
  repeat' split
  all_goals
    simp [List.countP_append, hfold, sendInit_countDone, isDoneLine,
      createResultMessage]

/-- The finished stream ends with the done sentinel. -/
theorem chatBody_lastDone (req : ChatRequestModel) (run : CliRun) (d : Int) :
    (chatBody req run d).getLast? = some StreamResponse.done := by
  simp only [chatBody]
  rw [List.getLast?_concat]

/-- Init lines of the finished stream: always one once any session id is
known, otherwise none. -/
theorem chatBody_countInit (req : ChatRequestModel) (run : CliRun) (d : Int) :
    (chatBody req run d).countP isInitLine =
      (match jsTruthy ((run.events.foldl (chatStep req)
          (({ sessionId := req.sessionId } : ChatState), [])).1).sessionId with
       | some _ => 1
       | none =>
          if ((run.events.foldl (chatStep req)
              (({ sessionId := req.sessionId } : ChatState), [])).1).initSent
          then 1 else 0) := by
  have hfold := chatFold_countInit req run.events
    ({ sessionId := req.sessionId } : ChatState) [] (by rfl)
  simp only [chatBody]
  rw [List.countP_append]
  repeat' split
  all_goals
    simp_all [List.countP_append, sendInit_countInit, isInitLine,
      createResultMessage, isDoneLine]
  all_goals split <;> simp

/-- Result lines of the finished stream: one exactly when a session id is
known at termination. -/
theorem chatBody_countResult (req : ChatRequestModel) (run : CliRun)
    (d : Int) :
    (chatBody req run d).countP isResultLine =
      (match jsTruthy ((run.events.foldl (chatStep req)
          (({ sessionId := req.sessionId } : ChatState), [])).1).sessionId with
       | some _ => 1
       | none => 0) := by
  have hfold := chatFold_countResult req run.events
    ({ sessionId := req.sessionId } : ChatState) []
  simp only [chatBody]
  rw [List.countP_append]
  repeat' split
  all_goals
    simp_all [List.countP_append, sendInit_countResult, isResultLine,
      createResultMessage]

/-- Claim C4, counterexample: an internal exception (here a spawn
failure) is caught and converted to an error line, after which the stream
closes — the `done` sentinel is not emitted on that path, so the stream
does not end with `done`. -/
theorem chat_exception_counterexample :
    handleChatStream {} (Except.error "spawn failure") 0 =
      [StreamResponse.error "spawn failure"] ∧
    (handleChatStream {} (Except.error "spawn failure") 0).getLast? ≠
      some StreamResponse.done := by
  refine ⟨rfl, ?_⟩
  intro h
  rw [show handleChatStream {} (Except.error "spawn failure") 0 =
    [StreamResponse.error "spawn failure"] from rfl] at h
  simp [List.getLast?] at h

/-- Claim C4 (amended): on every normal termination path — any event
stream, exit code and stderr — the response stream ends with `done` as
its last line, emitted exactly once; an internal exception instead
produces a single error line and the stream closes without a `done`
sentinel. -/
theorem chat_done_sentinel :
    (∀ (req : ChatRequestModel) (run : CliRun) (d : Int),
      (chatBody req run d).countP isDoneLine = 1 ∧
      (chatBody req run d).getLast? = some StreamResponse.done) ∧
    (∀ (req : ChatRequestModel) (e : String) (d : Int),
      handleChatStream req (Except.error e) d = [StreamResponse.error e] ∧
      (handleChatStream req (Except.error e) d).countP isDoneLine = 0) := by
  refine ⟨fun req run d => ⟨chatBody_countDone req run d,
    chatBody_lastDone req run d⟩, fun req e d => ⟨rfl, ?_⟩⟩
  simp [handleChatStream, isDoneLine]

/-- Claim C5, counterexample: in a request that already carries a session
id, a run with no events at all (so no event ever carries a session id)
still emits one init message and one result message at termination. -/
theorem chat_init_counterexample :
    (chatBody { sessionId := some "s0" } {} 0).countP isInitLine = 1 ∧
    (chatBody { sessionId := some "s0" } {} 0).countP isResultLine = 1 := by
  exact ⟨rfl, rfl⟩

/-- Claim C5 (amended): the stream never holds more than one init line;
and for a chat request that does not itself supply a session id, the
first event carrying one leads to exactly one init message (any further
invocations of the init-sender emit nothing), while a run in which no
event carries a session id emits neither init nor result. -/
theorem chat_init_idempotent :
    (∀ (req : ChatRequestModel) (run : CliRun) (d : Int),
      (chatBody req run d).countP isInitLine ≤ 1) ∧
    (∀ (req : ChatRequestModel) (run : CliRun) (d : Int),
      jsTruthy req.sessionId = none →
      ((∃ ev ∈ run.events, jsTruthy ev.sid ≠ none) →
        (chatBody req run d).countP isInitLine = 1) ∧
      ((∀ ev ∈ run.events, jsTruthy ev.sid = none) →
        (chatBody req run d).countP isInitLine = 0 ∧
        (chatBody req run d).countP isResultLine = 0)) := by
  constructor
  · intro req run d
    rw [chatBody_countInit]
    split
    · exact le_refl 1
    · split <;> simp
  · intro req run d hreq
    constructor
    · intro hex
      rw [chatBody_countInit]
      have hsent := chatFold_initSent_of_truthy req run.events hex
        ({ sessionId := req.sessionId } : ChatState) []
      split
      · rfl
      · rw [hsent]
        rfl
    · intro hall
      have hs := chatFold_sessionless req run.events hall
        ({ sessionId := req.sessionId } : ChatState) [] hreq
      constructor
      · rw [chatBody_countInit]
        split
        · next hsess =>
            rw [hs.1] at hsess
            rw [hreq] at hsess
            exact absurd hsess (by simp)
        · rw [hs.2.1]
          rfl
      · rw [chatBody_countResult]
        split
        · next hsess =>
            rw [hs.1] at hsess
            rw [hreq] at hsess
            exact absurd hsess (by simp)
        · rfl

/-- Claim C5 witness: the amended statement at concrete runs — one event
carrying a session id yields exactly one init line, and a run whose only
event (an error event) carries none yields neither init nor result. -/
theorem chat_init_idempotent_witness :
    jsTruthy ({} : ChatRequestModel).sessionId = none ∧
    (chatBody {} { events := [CliEvent.other (some "sX")] } 0).countP
        isInitLine = 1 ∧
    (chatBody {} { events := [CliEvent.error none (some (Json.str "boom"))] }
        0).countP isInitLine = 0 ∧
    (chatBody {} { events := [CliEvent.error none (some (Json.str "boom"))] }
        0).countP isResultLine = 0 := by
  refine ⟨rfl, ?_, ?_, ?_⟩
  · exact (chat_init_idempotent.2 {} { events := [CliEvent.other (some "sX")] }
      0 rfl).1 ⟨CliEvent.other (some "sX"), List.mem_singleton_self _,
        by decide⟩
  · exact ((chat_init_idempotent.2 {}
      { events := [CliEvent.error none (some (Json.str "boom"))] } 0 rfl).2
      (fun ev hm => by rw [List.mem_singleton.mp hm]; rfl)).1
  · exact ((chat_init_idempotent.2 {}
      { events := [CliEvent.error none (some (Json.str "boom"))] } 0 rfl).2
      (fun ev hm => by rw [List.mem_singleton.mp hm]; rfl)).2

/-- The flattened content stream of the flush loop: the pending content
followed by each part's items in order. -/
theorem contentStream_buildAssistantGo (sid ts : String) :
    ∀ (parts : List ExportPart) (content : List ClaudeContentItem)
      (h : Bool), (h = false → content = []) →
      contentStream (buildAssistantGo sid ts parts content h) =
        content ++ parts.flatMap exportPartItems := by
  intro parts
  induction parts with
  | nil =>
      intro content h hinv
      cases h with
      | false => simp [hinv rfl, buildAssistantGo, contentStream]
      | true =>
          simp [buildAssistantGo, contentStream, createAssistantMessage]
  | cons part rest ih =>
      intro content h hinv
      cases part with
      | text t =>
          by_cases ht : t = ""
          · have : createTextItem t = none := by simp [createTextItem, ht]
            simp only [buildAssistantGo, this]
            rw [ih content h hinv]
            simp [exportPartItems, this]
          · have : createTextItem t = some (ClaudeContentItem.text t) := by
              simp [createTextItem, ht]
            simp only [buildAssistantGo, this]
            rw [ih (content ++ [ClaudeContentItem.text t]) true (by simp)]
            simp [exportPartItems, this]
      | reasoning t =>
          by_cases ht : t = ""
          · have : createThinkingItem t = none := by
              simp [createThinkingItem, ht]
            simp only [buildAssistantGo, this]
            rw [ih content h hinv]
            simp [exportPartItems, this]
          · have : createThinkingItem t = some (ClaudeContentItem.thinking t) := by
              simp [createThinkingItem, ht]
            simp only [buildAssistantGo, this]
            rw [ih (content ++ [ClaudeContentItem.thinking t]) true (by simp)]
            simp [exportPartItems, this]
      | tool p =>
          by_cases hc : isCompletedOrError p = true
          · simp only [buildAssistantGo, hc, if_pos]
            rw [show contentStream
                (createAssistantMessage sid (content ++ [createToolUseItem p])
                    (some ts) ::
                  buildToolResultMessage sid p ::
                  buildAssistantGo sid ts rest [] false) =
              (content ++ [createToolUseItem p]) ++
                [createToolResultItem p] ++
                contentStream (buildAssistantGo sid ts rest [] false) from by
              simp [contentStream, createAssistantMessage,
                buildToolResultMessage, createUserMessage]]
            rw [ih [] false (fun _ => rfl)]
            simp [exportPartItems, hc]
          · have hc' : isCompletedOrError p = false := by
              simpa using hc
            simp only [buildAssistantGo, hc', Bool.false_eq_true, if_neg,
              not_false_eq_true]
            rw [ih (content ++ [createToolUseItem p]) true (by simp)]
            simp [exportPartItems, hc']
      | other =>
          simp only [buildAssistantGo]
          rw [ih content h hinv]
          simp [exportPartItems]

/-- Content items distribute over appended response lists. -/
theorem contentStreamSR_append (a b : List StreamResponse) :
    contentStreamSR (a ++ b) = contentStreamSR a ++ contentStreamSR b := by
  simp [contentStreamSR]

/-- The init step contributes no content items (the init message has no
content list). -/
theorem contentStreamSR_initStep (req : ChatRequestModel) (st : ChatState)
    (resolved : Option String) :
    contentStreamSR ((initStep req st resolved).2) = [] := by
  unfold initStep
  cases resolved with
  | none => rfl
  | some s =>
      rw [sendInit_snd]
      split <;> simp [contentStreamSR, createInitMessage]

/-- Claim C1 (amended): in the session-export path the flattened content
stream maps each tool part to a tool_use immediately followed, exactly
for `completed`/`error` status, by a tool_result carrying the same
callID — a `running` tool contributes no tool_result there.  In the live
chat path, however, every tool_use event with a resolvable session emits
a tool_use assistant message immediately followed by one tool_result user
message with the matching id regardless of status — also for `running`
tools. -/
theorem tool_translation_pairing :
    (∀ (sid : String) (parts : List ExportPart) (createdAt : Int),
      contentStream (buildAssistantMessages sid parts createdAt) =
        parts.flatMap exportPartItems) ∧
    (∀ p : ToolPart, isCompletedOrError p = true →
      exportPartItems (ExportPart.tool p) =
        [createToolUseItem p, createToolResultItem p]) ∧
    (∀ p : ToolPart, isCompletedOrError p = false →
      exportPartItems (ExportPart.tool p) = [createToolUseItem p]) ∧
    (∀ p : ToolPart,
      contentItemToolId (createToolUseItem p) = some p.callID ∧
      contentItemToolId (createToolResultItem p) = some p.callID ∧
      contentItemToolId (createExitPlanModeResultItem p) = some p.callID) ∧
    (∀ (req : ChatRequestModel) (st : ChatState) (sid : Option String)
      (p : ToolPart) (s : String), resolvedSession st sid = some s →
      contentStreamSR
          ((handleEvent req st (CliEvent.tool_use sid (some p))).2) =
        [createToolUseItem p,
         if isExitPlanModeTool p then createExitPlanModeResultItem p
         else createToolResultItem p]) := by
  refine ⟨?_, ?_, ?_, ?_, ?_⟩
  · intro sid parts createdAt
    exact contentStream_buildAssistantGo sid (toIso createdAt) parts []
      false (fun _ => rfl)
  · intro p hc
    simp [exportPartItems, hc]
  · intro p hc
    simp [exportPartItems, hc]
  · intro p
    exact ⟨rfl, rfl, rfl⟩
  · intro req st sid p s hres
    have hsid : resolvedSession st (CliEvent.tool_use sid (some p)).sid =
        some s := hres
    rw [handleEvent_snd, contentStreamSR_append, contentStreamSR_initStep,
      hsid]
    simp only [dispatchOutputs, hsid]
    simp [contentStreamSR, createAssistantMessage, createUserMessage]

/-- Claim C1 witness: the parts of the amended theorem applied at
concrete inputs — a completed tool in an export turn and a tool_use event
in a live stream. -/
theorem tool_translation_pairing_witness :
    (isCompletedOrError sampleCompleted = true ∧
      exportPartItems (ExportPart.tool sampleCompleted) =
        [createToolUseItem sampleCompleted,
         createToolResultItem sampleCompleted]) ∧
    (resolvedSession { sessionId := some "s1" } none = some "s1" ∧
      contentStreamSR ((handleEvent {} { sessionId := some "s1" }
          (CliEvent.tool_use none (some sampleCompleted))).2) =
        [createToolUseItem sampleCompleted,
         if isExitPlanModeTool sampleCompleted
         then createExitPlanModeResultItem sampleCompleted
         else createToolResultItem sampleCompleted]) := by
  constructor
  · exact ⟨rfl, tool_translation_pairing.2.1 _ rfl⟩
  · exact ⟨rfl, tool_translation_pairing.2.2.2.2 {} { sessionId := some "s1" }
      none sampleCompleted "s1" rfl⟩

/-- Claim C1, counterexample: in the live chat path a tool part whose
status is still `running` nevertheless produces a tool_result content
item (the claim asserts zero tool_result items for `running` parts in
both paths). -/
theorem live_running_tool_counterexample :
    sampleRunning.state.status = ToolStatus.running ∧
    countToolResultItems (contentStreamSR
      ((handleEvent {} { sessionId := some "s1" }
        (CliEvent.tool_use none (some sampleRunning))).2)) = 1 := by
  exact ⟨rfl, rfl⟩

/-- A user-turn message is a user message and not a tool-result
envelope (its content is a list of text items). -/
theorem buildUserMessage_classifiers (sid : String) (parts : List ExportPart)
    (t : Int) :
    isUserTurnMsg (buildUserMessage sid parts t) = true ∧
    isToolResultMsg (buildUserMessage sid parts t) = false ∧
    isAssistantMsg (buildUserMessage sid parts t) = false := by
  have hnt : isToolResultMsg (buildUserMessage sid parts t) = false := by
    unfold buildUserMessage createUserMessage isToolResultMsg
    simp only
    cases hl : parts.filterMap (fun p => match p with
      | ExportPart.text t => createTextItem t
      | _ => none) with
    | nil => rfl
    | cons x xs =>
        cases xs with
        | cons y ys => cases x <;> rfl
        | nil =>
            have hx : x ∈ parts.filterMap (fun p => match p with
                | ExportPart.text t => createTextItem t
                | _ => none) := by rw [hl]; exact List.mem_singleton_self x
            obtain ⟨a, _, hfa⟩ := List.mem_filterMap.mp hx
            cases a with
            | text s =>
                by_cases hs : s = ""
                · simp [createTextItem, hs] at hfa
                · simp only [createTextItem, hs, if_neg] at hfa
                  rw [← Option.some.inj hfa]
                  rfl
            | reasoning s => simp at hfa
            | tool p => simp at hfa
            | other => simp at hfa
  refine ⟨?_, hnt, rfl⟩
  unfold isUserTurnMsg
  rw [hnt]
  rfl

/-- Assistant-count of the flush loop equals `flushCount`. -/
theorem buildAssistantGo_countAssistant (sid ts : String) :
    ∀ (parts : List ExportPart) (content : List ClaudeContentItem)
      (h : Bool),
      (buildAssistantGo sid ts parts content h).countP isAssistantMsg =
        flushCount parts h := by
  intro parts
  induction parts with
  | nil =>
      intro content h
      cases h <;> simp [buildAssistantGo, flushCount, isAssistantMsg,
        createAssistantMessage]
  | cons part rest ih =>
      intro content h
      cases part with
      | text t =>
          by_cases ht : t = ""
          · simp only [buildAssistantGo, createTextItem, ht, if_pos]
            rw [ih content h]
            simp [flushCount, ht]
          · simp only [buildAssistantGo, createTextItem, ht, if_neg,
              not_false_eq_true]
            rw [ih _ true]
            simp [flushCount, ht]
      | reasoning t =>
          by_cases ht : t = ""
          · simp only [buildAssistantGo, createThinkingItem, ht, if_pos]
            rw [ih content h]
            simp [flushCount, ht]
          · simp only [buildAssistantGo, createThinkingItem, ht, if_neg,
              not_false_eq_true]
            rw [ih _ true]
            simp [flushCount, ht]
      | tool p =>
          by_cases hc : isCompletedOrError p = true
          · simp only [buildAssistantGo, hc, if_pos]
            rw [List.countP_cons, List.countP_cons, ih [] false]
            have h1 : isAssistantMsg
                (createAssistantMessage sid (content ++ [createToolUseItem p])
                  (some ts)) = true := rfl
            have h2 : isAssistantMsg (buildToolResultMessage sid p) = false :=
              rfl
            rw [h1, h2]
            simp [flushCount, hc]
            omega
          · have hc' : isCompletedOrError p = false := by simpa using hc
            simp only [buildAssistantGo, hc', Bool.false_eq_true, if_neg,
              not_false_eq_true]
            rw [ih _ true]
            simp [flushCount, hc']
      | other =>
          simp only [buildAssistantGo]
          rw [ih content h]
          simp [flushCount]

/-- Tool-result-count of the flush loop equals the number of completed or
errored tool parts. -/
theorem buildAssistantGo_countToolResult (sid ts : String) :
    ∀ (parts : List ExportPart) (content : List ClaudeContentItem)
      (h : Bool),
      (buildAssistantGo sid ts parts content h).countP isToolResultMsg =
        completedToolCount parts := by
  intro parts
  induction parts with
  | nil =>
      intro content h
      cases h <;> simp [buildAssistantGo, completedToolCount,
        isToolResultMsg, createAssistantMessage]
  | cons part rest ih =>
      intro content h
      cases part with
      | text t =>
          by_cases ht : t = ""
          · simp only [buildAssistantGo, createTextItem, ht, if_pos]
            rw [ih content h]
            simp [completedToolCount]
          · simp only [buildAssistantGo, createTextItem, ht, if_neg,
              not_false_eq_true]
            rw [ih _ true]
            simp [completedToolCount]
      | reasoning t =>
          by_cases ht : t = ""
          · simp only [buildAssistantGo, createThinkingItem, ht, if_pos]
            rw [ih content h]
            simp [completedToolCount]
          · simp only [buildAssistantGo, createThinkingItem, ht, if_neg,
              not_false_eq_true]
            rw [ih _ true]
            simp [completedToolCount]
      | tool p =>
          by_cases hc : isCompletedOrError p = true
          · simp only [buildAssistantGo, hc, if_pos]
            rw [List.countP_cons, List.countP_cons, ih [] false]
            have h1 : isToolResultMsg
                (createAssistantMessage sid (content ++ [createToolUseItem p])
                  (some ts)) = false := rfl
            have h2 : isToolResultMsg (buildToolResultMessage sid p) = true :=
              rfl
            rw [h1, h2]
            simp [completedToolCount, hc]
          · have hc' : isCompletedOrError p = false := by simpa using hc
            simp only [buildAssistantGo, hc', Bool.false_eq_true, if_neg,
              not_false_eq_true]
            rw [ih _ true]
            simp [completedToolCount, hc']
      | other =>
          simp only [buildAssistantGo]
          rw [ih content h]
          simp [completedToolCount]

/-- The flush loop emits no user-turn message. -/
theorem buildAssistantGo_countUserTurn (sid ts : String) :
    ∀ (parts : List ExportPart) (content : List ClaudeContentItem)
      (h : Bool),
      (buildAssistantGo sid ts parts content h).countP isUserTurnMsg = 0 := by
  intro parts
  induction parts with
  | nil =>
      intro content h
      cases h <;> simp [buildAssistantGo, isUserTurnMsg, isToolResultMsg,
        createAssistantMessage]
  | cons part rest ih =>
      intro content h
      cases part with
      | text t =>
          by_cases ht : t = ""
          · simp only [buildAssistantGo, createTextItem, ht, if_pos]
            exact ih content h
          · simp only [buildAssistantGo, createTextItem, ht, if_neg,
              not_false_eq_true]
            exact ih _ true
      | reasoning t =>
          by_cases ht : t = ""
          · simp only [buildAssistantGo, createThinkingItem, ht, if_pos]
            exact ih content h
          · simp only [buildAssistantGo, createThinkingItem, ht, if_neg,
              not_false_eq_true]
            exact ih _ true
      | tool p =>
          by_cases hc : isCompletedOrError p = true
          · simp only [buildAssistantGo, hc, if_pos]
            rw [List.countP_cons, List.countP_cons, ih [] false]
            have h1 : isUserTurnMsg
                (createAssistantMessage sid (content ++ [createToolUseItem p])
                  (some ts)) = false := rfl
            have h2 : isUserTurnMsg (buildToolResultMessage sid p) = false :=
              rfl
            rw [h1, h2]
            simp
          · have hc' : isCompletedOrError p = false := by simpa using hc
            simp only [buildAssistantGo, hc', Bool.false_eq_true, if_neg,
              not_false_eq_true]
            exact ih _ true
      | other =>
          simp only [buildAssistantGo]
          exact ih content h

/-- Claim C2 (amended): `convertExportMessages` yields one user message
per user turn and one tool-result user message per completed/errored tool
call, but the number of assistant-content messages per assistant turn is
the number of flush segments (`flushCount`), not one — content after a
completed tool starts a new assistant message; output follows input
order, and a tool result is timestamped `state.time.end` for
`completed`/`error` status and `state.time.start` otherwise. -/
theorem convertExportMessages_counts :
    (∀ (now : Int) (msgs : List ExportMessage),
      (convertExportMessages now msgs).countP isUserTurnMsg =
        msgs.countP (fun m => m.role == Role.user) ∧
      (convertExportMessages now msgs).countP isToolResultMsg =
        ((msgs.filter (fun m => m.role == Role.assistant)).map
          (fun m => completedToolCount m.parts)).sum ∧
      (convertExportMessages now msgs).countP isAssistantMsg =
        ((msgs.filter (fun m => m.role == Role.assistant)).map
          (fun m => flushCount m.parts false)).sum) ∧
    (∀ (sid : String) (p : ToolPart),
      (buildToolResultMessage sid p).timestamp =
        some (toIso (getToolResultTimestamp p))) ∧
    (∀ p : ToolPart, getToolResultTimestamp p =
      if p.state.status = ToolStatus.completed ∨
          p.state.status = ToolStatus.error
      then p.state.time.endTime else p.state.time.start) := by
  refine ⟨?_, fun sid p => rfl, fun p => rfl⟩
  intro now msgs
  induction msgs with
  | nil => exact ⟨rfl, rfl, rfl⟩
  | cons m rest ih =>
      have hsplit : convertExportMessages now (m :: rest) =
          (match m.role with
           | Role.user => [buildUserMessage (m.sessionID.getD "unknown")
               m.parts (m.timeCreated.getD now)]
           | Role.assistant => buildAssistantMessages
               (m.sessionID.getD "unknown") m.parts
               (m.timeCreated.getD now)) ++
            convertExportMessages now rest := rfl
      have euu : (Role.user == Role.user) = true := rfl
      have eua : (Role.user == Role.assistant) = false := rfl
      have eau : (Role.assistant == Role.user) = false := rfl
      have eaa : (Role.assistant == Role.assistant) = true := rfl
      cases hrole : m.role with
      | user =>
          rw [hsplit, hrole]
          have hb := buildUserMessage_classifiers (m.sessionID.getD "unknown")
            m.parts (m.timeCreated.getD now)
          refine ⟨?_, ?_, ?_⟩
          · rw [List.countP_append, ih.1]
            simp [hb.1, hrole, List.countP_cons, euu]
            omega
          · rw [List.countP_append, ih.2.1]
            simp [hb.2.1, hrole, List.filter_cons, eua]
          · rw [List.countP_append, ih.2.2]
            simp [hb.2.2, hrole, List.filter_cons, eua]
      | assistant =>
          rw [hsplit, hrole]
          refine ⟨?_, ?_, ?_⟩
          · rw [List.countP_append, ih.1]
            unfold buildAssistantMessages
            rw [buildAssistantGo_countUserTurn]
            simp [hrole, List.countP_cons, eau]
          · rw [List.countP_append, ih.2.1]
            unfold buildAssistantMessages
            rw [buildAssistantGo_countToolResult]
            simp [hrole, List.filter_cons, eaa]
          · rw [List.countP_append, ih.2.2]
            unfold buildAssistantMessages
            rw [buildAssistantGo_countAssistant]
            simp [hrole, List.filter_cons, eaa]

/-- Claim C2, counterexample: one assistant turn with text before and
after a completed tool call (no user turns) converts to three messages —
two assistant-content messages and one tool result — where the claim
predicts N + M + K = 0 + 1 + 1 = 2. -/
theorem convert_count_counterexample :
    (convertExportMessages 0 exConvMsgs).length = 3 ∧
    exConvMsgs.countP (fun m => m.role == Role.user) = 0 ∧
    exConvMsgs.countP (fun m => m.role == Role.assistant) = 1 ∧
    ((exConvMsgs.filter (fun m => m.role == Role.assistant)).map
      (fun m => completedToolCount m.parts)).sum = 1 ∧
    (convertExportMessages 0 exConvMsgs).length ≠ 0 + 1 + 1 := by
  exact ⟨rfl, rfl, rfl, rfl, by decide⟩
